import Mathlib

/-!
Verification development for the pypodcast repository.

The definitions below are a shallow embedding of the Python sources:
* `src/pypodcast/__init__.py` — orchestration (`process_feeds`), the per-entry
  task (`process_entry`), the error boundary (`catch_errors`), the MP3 tag
  rewrite (`fix_tags`, registered for `mutagen.mp3.MP3`), `_get_ext`, `dl_blob`;
* `src/pypodcast/config.py` — the cache context manager (`open_cache`);
* `src/pypodcast/providers/__init__.py` — `Provider.__getitem__` and the
  `Nightvale` provider (`_num_title`, `album`).

External collaborators (HTTP transport, feed parsing, the mutagen binary
codec, `mimetypes`, `markdownify`, path sanitisation and the missing
`junk_drawer` helpers) are passed in as oracle functions, mirroring the call
sites in the source.
-/

set_option maxHeartbeats 1000000

namespace Pypodcast

/-! ## The mutagen ID3 tag container

A mutagen `MP3` object behaves as a mutable mapping from dictionary keys to
tag frames.  A frame carries its frame id (`fid`, e.g. `"TRCK"`), and the
payload fields used by `fix_tags`: `text`, `desc`, `lang`, `mime`, `data`.
Frames loaded from an existing file are stored under their `HashKey`
(the frame id itself for text frames, `"APIC:" ++ desc` for pictures,
`"COMM:" ++ desc ++ ":" ++ lang` for comments), while `tags['K'] = frame`
stores the new frame under the literal dictionary key `'K'`.
`tags.tags.delall(fid)` removes every frame whose frame id is `fid`.
-/

/-- One ID3 tag frame, with the payload fields that `fix_tags` populates. -/
structure Frame where
  fid : String
  text : String := ""
  desc : String := ""
  lang : String := ""
  mime : String := ""
  data : List Nat := []
deriving Repr, DecidableEq

/-- The tag container: an association list of dictionary key to frame. -/
abbrev Tags := List (String × Frame)

/-- `tags.tags.delall(fid)`: remove every frame whose frame id is `fid`. -/
def delall (tags : Tags) (fid : String) : Tags :=
  tags.filter (fun kv => !(kv.2.fid == fid))

/-- `tags[key] = f`: replace whatever is stored under `key` with `f`. -/
def setitem (tags : Tags) (key : String) (f : Frame) : Tags :=
  tags.filter (fun kv => !(kv.1 == key)) ++ [(key, f)]

/-- All frames of a given frame id, with their dictionary keys
(mutagen's `tags.getall(fid)`). -/
def framesOf (tags : Tags) (fid : String) : Tags :=
  tags.filter (fun kv => kv.2.fid == fid)

/-- One primitive mutation performed by `fix_tags`:
either a `delall` or a dictionary-key assignment. -/
inductive TagOp where
  | del (fid : String)
  | set (key : String) (f : Frame)
deriving Repr

/-- Run one primitive mutation. -/
def applyOp (tags : Tags) : TagOp → Tags
  | .del fid => delall tags fid
  | .set key f => setitem tags key f

/-- Run a block of primitive mutations in order. -/
def applyOps (tags : Tags) (ops : List TagOp) : Tags :=
  ops.foldl applyOp tags

/-! ## Canonical metadata (the Provider output consumed by `fix_tags`)

Fields that Python treats by truthiness are modelled with their Python
types: strings (`None`/empty ⇒ falsy), string-or-list values, the episode
number as an integer (`0` ⇒ falsy), artwork as URL string or inline bytes,
and `pub_date` as an `arrow.Arrow` value (always truthy when present),
reduced to the two renderings `fix_tags` extracts from it. -/

/-- A value that is either a plain string or a list of strings
(`str | list[str]` in the Provider signatures). -/
inductive StrOrList where
  | str (s : String)
  | list (l : List String)
deriving Repr, DecidableEq

/-- `provider.episode_art`: a remote URL or inline bytes. -/
inductive Art where
  | url (u : String)
  | blob (b : List Nat)
deriving Repr, DecidableEq

/-- An `arrow.Arrow` publication date, reduced to the two renderings used by
`fix_tags`: `pubdate.to('utc').isoformat()` and `pubdate.to('utc').year`. -/
structure PubDate where
  utcIso : String
  utcYear : Int
deriving Repr, DecidableEq

/-- The canonical metadata record: each accessor of the Provider that
`fix_tags` queries, `none` standing for Python `None`. -/
structure CanonicalMetadata where
  episode_id : Option String := none
  episode_url : Option String := none
  episode_art : Option Art := none
  episode_number : Int := 0
  episode_title : Option String := none
  episode_subtitle : Option String := none
  summary : Option String := none
  album : Option String := none
  season : Option String := none
  category : Option StrOrList := none
  copyright : Option String := none
  pub_date : Option PubDate := none
  hosts : Option StrOrList := none
  guests : Option StrOrList := none
  editors : Option StrOrList := none
  directors : Option StrOrList := none
  producers : Option StrOrList := none
  publisher : Option String := none
deriving Repr, DecidableEq

/-- Python truthiness of an optional string (`None` and `""` are falsy). -/
def truthyS : Option String → Bool
  | none => false
  | some s => !s.isEmpty

/-- Python truthiness of an optional string-or-list value. -/
def truthySL : Option StrOrList → Bool
  | none => false
  | some (.str s) => !s.isEmpty
  | some (.list l) => !l.isEmpty

/-- Python truthiness of the artwork value (`None`, `""`, `b""` are falsy). -/
def truthyArt : Option Art → Bool
  | none => false
  | some (.url u) => !u.isEmpty
  | some (.blob b) => !b.isEmpty

/-- `', '.join(x)` when `x` is a list, `x` itself when it is a string. -/
def slText : StrOrList → String
  | .str s => s
  | .list l => String.intercalate ", " l

/-- Extract an optional string (meaningful only under truthiness). -/
def getS (o : Option String) : String := o.getD ""

/-- Extract and join an optional string-or-list (meaningful under truthiness). -/
def getSL (o : Option StrOrList) : String := slText (o.getD (.str ""))

/-! ## `fix_tags` for `mutagen.mp3.MP3` (`src/pypodcast/__init__.py` 143-231)

Each `if field:` block of the source is one list of primitive mutations;
the blocks run in source order.  The artwork block can raise: when
`episode_art` is inline bytes, the source constructs
`APIC(..., mime=mimetype, ...)` but `mimetype` was only assigned in the
URL branch, so Python raises `UnboundLocalError`. -/

/-- `tags['PCST:'] = mutagen.id3.PCST(1)` (line 145). -/
def pcstFrame : Frame := { fid := "PCST", text := "1" }

/-- `APIC(encoding=0, mime=mimetype, type=3, desc='Track', data=art)`. -/
def apicFrame (blob : List Nat) (mimetype : String) : Frame :=
  { fid := "APIC", mime := mimetype, desc := "Track", data := blob }

/-- The artwork block (lines 146-155), parameterised over `dl_blob`,
which returns `(bytes, content-type)`. -/
def stepArt (dl : String → List Nat × String) (p : CanonicalMetadata)
    (tags : Tags) : Except String Tags :=
  match p.episode_art with
  | some (.url u) =>
      if u.isEmpty then .ok tags
      else .ok (setitem tags "APIC:" (apicFrame (dl u).1 (dl u).2))
  | some (.blob b) =>
      if b.isEmpty then .ok tags
      else .error "UnboundLocalError: mimetype referenced before assignment"
  | none => .ok tags

/-- Lines 156-158: `if epnum := provider.episode_number`. -/
def trckOps (p : CanonicalMetadata) : List TagOp :=
  if p.episode_number ≠ 0 then
    [.del "TRCK", .set "TRCK:" { fid := "TRCK", text := toString p.episode_number }]
  else []

/-- Lines 159-161: `if epurl := provider.episode_url`. -/
def woarOps (p : CanonicalMetadata) : List TagOp :=
  if truthyS p.episode_url then
    [.del "WOAR", .set "WOAR:" { fid := "WOAR", text := getS p.episode_url }]
  else []

/-- Lines 162-164: `if title := provider.episode_title`. -/
def tit2Ops (p : CanonicalMetadata) : List TagOp :=
  if truthyS p.episode_title then
    [.del "TIT2", .set "TIT2:" { fid := "TIT2", text := getS p.episode_title }]
  else []

/-- Lines 165-167: `if sub := provider.episode_subtitle`. -/
def tit3Ops (p : CanonicalMetadata) : List TagOp :=
  if truthyS p.episode_subtitle then
    [.del "TIT3", .set "TIT3:" { fid := "TIT3", text := getS p.episode_subtitle }]
  else []

/-- Lines 168-172: `if hosts := provider.hosts` (list joined with `', '`). -/
def tpe1Ops (p : CanonicalMetadata) : List TagOp :=
  if truthySL p.hosts then
    [.del "TPE1", .set "TPE1:" { fid := "TPE1", text := getSL p.hosts }]
  else []

/-- Lines 173-177: `if guests := provider.guests`. -/
def tpe2Ops (p : CanonicalMetadata) : List TagOp :=
  if truthySL p.guests then
    [.del "TPE2", .set "TPE2:" { fid := "TPE2", text := getSL p.guests }]
  else []

/-- Lines 178-182: `if directors := provider.directors`. -/
def tpe3Ops (p : CanonicalMetadata) : List TagOp :=
  if truthySL p.directors then
    [.del "TPE3", .set "TPE3:" { fid := "TPE3", text := getSL p.directors }]
  else []

/-- Lines 183-187: `if editors := provider.editors`. -/
def tpe4Ops (p : CanonicalMetadata) : List TagOp :=
  if truthySL p.editors then
    [.del "TPE4", .set "TPE4:" { fid := "TPE4", text := getSL p.editors }]
  else []

/-- Lines 188-192: `if producers := provider.producers`. -/
def tproOps (p : CanonicalMetadata) : List TagOp :=
  if truthySL p.producers then
    [.del "TPRO", .set "TPRO:" { fid := "TPRO", text := getSL p.producers }]
  else []

/-- Lines 193-195: `if publisher := provider.publisher`. -/
def tpubOps (p : CanonicalMetadata) : List TagOp :=
  if truthyS p.publisher then
    [.del "TPUB", .set "TPUB:" { fid := "TPUB", text := getS p.publisher }]
  else []

/-- Lines 196-204: `if summary := provider.summary` writes both a `COMM`
comment (lang `'eng'`, desc `'Summary'`) and a `TDES` frame. -/
def summaryOps (p : CanonicalMetadata) : List TagOp :=
  if truthyS p.summary then
    [.del "COMM", .del "TDES",
     .set "COMM:" { fid := "COMM", lang := "eng", desc := "Summary", text := getS p.summary },
     .set "TDES:" { fid := "TDES", text := getS p.summary }]
  else []

/-- Lines 205-207: `if album := provider.album`. -/
def talbOps (p : CanonicalMetadata) : List TagOp :=
  if truthyS p.album then
    [.del "TALB", .set "TALB:" { fid := "TALB", text := getS p.album }]
  else []

/-- Lines 208-210: `if season := provider.season`. -/
def tposOps (p : CanonicalMetadata) : List TagOp :=
  if truthyS p.season then
    [.del "TPOS", .set "TPOS:" { fid := "TPOS", text := getS p.season }]
  else []

/-- Lines 211-220: `if cat := provider.category` writes `TCAT` and
`TCON` (`cat + ', Podcast'`); its `else` branch still rewrites `TCON`
with the default genre `'Podcast'`. -/
def categoryOps (p : CanonicalMetadata) : List TagOp :=
  if truthySL p.category then
    [.del "TCAT", .del "TCON",
     .set "TCAT:" { fid := "TCAT", text := getSL p.category },
     .set "TCON:" { fid := "TCON", text := getSL p.category ++ ", Podcast" }]
  else
    [.del "TCON", .set "TCON:" { fid := "TCON", text := "Podcast" }]

/-- Lines 221-223: `if cr := provider.copyright`. -/
def tcopOps (p : CanonicalMetadata) : List TagOp :=
  if truthyS p.copyright then
    [.del "TCOP", .set "TCOP:" { fid := "TCOP", text := getS p.copyright }]
  else []

/-- Lines 224-229: `if pubdate := provider.pub_date` writes `TDOR`
(UTC isoformat) and `TDRC` (the bare UTC year, stringified). -/
def pubdateOps (p : CanonicalMetadata) : List TagOp :=
  match p.pub_date with
  | some d =>
      [.del "TDOR", .del "TDRC",
       .set "TDOR:" { fid := "TDOR", text := d.utcIso },
       .set "TDRC:" { fid := "TDRC", text := toString d.utcYear }]
  | none => []

/-- Lines 230-231: `if epid := provider.episode_id` — note: no `delall`. -/
def tgidOps (p : CanonicalMetadata) : List TagOp :=
  if truthyS p.episode_id then
    [.set "TGID:" { fid := "TGID", text := getS p.episode_id }]
  else []

/-- The pure tail of `fix_tags`: the field blocks after the artwork block,
applied in source order (lines 156-231). -/
def synthPure (p : CanonicalMetadata) (t : Tags) : Tags :=
  applyOps (applyOps (applyOps (applyOps (applyOps (applyOps (applyOps
    (applyOps (applyOps (applyOps (applyOps (applyOps (applyOps (applyOps
      (applyOps (applyOps (applyOps t
        (trckOps p)) (woarOps p)) (tit2Ops p)) (tit3Ops p)) (tpe1Ops p))
        (tpe2Ops p)) (tpe3Ops p)) (tpe4Ops p)) (tproOps p)) (tpubOps p))
        (summaryOps p)) (talbOps p)) (tposOps p)) (categoryOps p))
        (tcopOps p)) (pubdateOps p)) (tgidOps p)

/-- The MP3 registration of `fix_tags` (lines 143-231): write the `PCST`
podcast flag, run the artwork block (which can raise), then the field
blocks in source order. -/
def fix_tags (dl : String → List Nat × String) (tags : Tags)
    (p : CanonicalMetadata) : Except String Tags :=
  match stepArt dl p (setitem tags "PCST:" pcstFrame) with
  | .error e => .error e
  | .ok t => .ok (synthPure p t)

/-! ## Generic lemmas about the tag container primitives -/

theorem framesOf_append (t1 t2 : Tags) (F : String) :
    framesOf (t1 ++ t2) F = framesOf t1 F ++ framesOf t2 F :=
  List.filter_append ..

theorem framesOf_delall_ne (t : Tags) (F fid : String) (h : F ≠ fid) :
    framesOf (delall t fid) F = framesOf t F := by
  unfold framesOf delall
  rw [List.filter_filter]
  refine List.filter_congr ?_
  intro kv _
  by_cases hf : kv.2.fid = F
  · simp [hf, h]
  · simp [hf]

theorem framesOf_delall_self (t : Tags) (F : String) :
    framesOf (delall t F) F = [] := by
  unfold framesOf delall
  rw [List.filter_filter]
  refine List.filter_eq_nil_iff.mpr ?_
  intro kv _
  simp

theorem framesOf_setitem (t : Tags) (k : String) (f : Frame) (F : String) :
    framesOf (setitem t k f) F =
      (framesOf t F).filter (fun kv => !(kv.1 == k)) ++
        (if f.fid = F then [(k, f)] else []) := by
  unfold framesOf setitem
  rw [List.filter_append, List.filter_filter, List.filter_filter]
  congr 1
  · exact List.filter_congr (fun kv _ => Bool.and_comm ..)
  · by_cases hf : f.fid = F <;> simp [hf]

/-- Side condition for carrying a singleton `framesOf` fact past
an unrelated mutation. -/
def OpAvoidsSK (op : TagOp) (F k : String) : Prop :=
  match op with
  | .del fid => fid ≠ F
  | .set key g => key ≠ k ∧ g.fid ≠ F

theorem framesOf_applyOp_stable (t : Tags) (op : TagOp) (F k : String) (f : Frame)
    (h : framesOf t F = [(k, f)]) (hop : OpAvoidsSK op F k) :
    framesOf (applyOp t op) F = [(k, f)] := by
  cases op with
  | del fid =>
      have hop' : fid ≠ F := hop
      show framesOf (delall t fid) F = _
      rw [framesOf_delall_ne t F fid (Ne.symm hop'), h]
  | set key g =>
      rcases (hop : key ≠ k ∧ g.fid ≠ F) with ⟨hk, hf⟩
      show framesOf (setitem t key g) F = _
      rw [framesOf_setitem, h]
      have hk' : k ≠ key := Ne.symm hk
      simp [hf, hk']

theorem framesOf_applyOps_stable (ops : List TagOp) (t : Tags) (F k : String) (f : Frame)
    (h : framesOf t F = [(k, f)]) (hops : ∀ op ∈ ops, OpAvoidsSK op F k) :
    framesOf (applyOps t ops) F = [(k, f)] := by
  induction ops generalizing t with
  | nil => exact h
  | cons op ops ih =>
      exact ih (applyOp t op)
        (framesOf_applyOp_stable t op F k f h (hops op (List.mem_cons_self ..)))
        (fun o ho => hops o (List.mem_cons_of_mem _ ho))

/-- Side condition for a mutation to leave `framesOf · F` untouched:
it must target another frame id and a dictionary key not held by any
existing frame of id `F`. -/
def OpPreserves (op : TagOp) (F : String) (S : Tags) : Prop :=
  match op with
  | .del fid => fid ≠ F
  | .set key g => g.fid ≠ F ∧ ∀ kv ∈ S, kv.1 ≠ key

theorem framesOf_applyOp_preserve (t : Tags) (op : TagOp) (F : String)
    (hop : OpPreserves op F (framesOf t F)) :
    framesOf (applyOp t op) F = framesOf t F := by
  cases op with
  | del fid =>
      have hop' : fid ≠ F := hop
      exact framesOf_delall_ne t F fid (Ne.symm hop')
  | set key g =>
      rcases (hop : g.fid ≠ F ∧ ∀ kv ∈ framesOf t F, kv.1 ≠ key) with ⟨hf, hkeys⟩
      show framesOf (setitem t key g) F = _
      rw [framesOf_setitem, if_neg hf, List.append_nil]
      refine List.filter_eq_self.mpr ?_
      intro kv hkv
      simp [hkeys kv hkv]

theorem framesOf_applyOps_preserve (ops : List TagOp) (t : Tags) (F : String)
    (hops : ∀ op ∈ ops, OpPreserves op F (framesOf t F)) :
    framesOf (applyOps t ops) F = framesOf t F := by
  induction ops generalizing t with
  | nil => rfl
  | cons op ops ih =>
      have h1 : framesOf (applyOp t op) F = framesOf t F :=
        framesOf_applyOp_preserve t op F (hops op (List.mem_cons_self ..))
      have h2 : framesOf (applyOps (applyOp t op) ops) F = framesOf (applyOp t op) F := by
        refine ih (applyOp t op) ?_
        intro o ho
        rw [h1]
        exact hops o (List.mem_cons_of_mem _ ho)
      show framesOf (applyOps (applyOp t op) ops) F = framesOf t F
      rw [h2, h1]

theorem mem_setitem_self (t : Tags) (k : String) (f : Frame) : (k, f) ∈ setitem t k f := by
  unfold setitem
  exact List.mem_append_right _ (List.mem_singleton.mpr rfl)

theorem mem_setitem_of_ne (t : Tags) (k key : String) (f g : Frame) (h : k ≠ key)
    (hmem : (k, f) ∈ t) : (k, f) ∈ setitem t key g := by
  unfold setitem
  exact List.mem_append_left _ (List.mem_filter.mpr ⟨hmem, by simp [h]⟩)

theorem mem_delall_of_ne (t : Tags) (k : String) (f : Frame) (fid : String)
    (h : f.fid ≠ fid) (hmem : (k, f) ∈ t) : (k, f) ∈ delall t fid := by
  unfold delall
  exact List.mem_filter.mpr ⟨hmem, by simp [h]⟩

theorem mem_applyOp (t : Tags) (op : TagOp) (k : String) (f : Frame)
    (hmem : (k, f) ∈ t) (hop : OpAvoidsSK op f.fid k) : (k, f) ∈ applyOp t op := by
  cases op with
  | del fid =>
      have hop' : fid ≠ f.fid := hop
      exact mem_delall_of_ne t k f fid (Ne.symm hop') hmem
  | set key g =>
      rcases (hop : key ≠ k ∧ g.fid ≠ f.fid) with ⟨hk, _⟩
      exact mem_setitem_of_ne t k key f g (Ne.symm hk) hmem

theorem mem_applyOps (ops : List TagOp) (t : Tags) (k : String) (f : Frame)
    (hmem : (k, f) ∈ t) (hops : ∀ op ∈ ops, OpAvoidsSK op f.fid k) :
    (k, f) ∈ applyOps t ops := by
  induction ops generalizing t with
  | nil => exact hmem
  | cons op ops ih =>
      exact ih (applyOp t op)
        (mem_applyOp t op k f hmem (hops op (List.mem_cons_self ..)))
        (fun o ho => hops o (List.mem_cons_of_mem _ ho))

/-- After `delall F` followed by a key assignment of a frame of id `F`,
the container holds exactly that one frame of id `F`. -/
theorem framesOf_establish (t : Tags) (F key : String) (f : Frame) (hf : f.fid = F) :
    framesOf (setitem (delall t F) key f) F = [(key, f)] := by
  rw [framesOf_setitem, framesOf_delall_self]
  simp [hf]

theorem framesOf_setitem_preserve (t : Tags) (key : String) (g : Frame) (F : String)
    (hf : g.fid ≠ F) (hkeys : ∀ kv ∈ framesOf t F, kv.1 ≠ key) :
    framesOf (setitem t key g) F = framesOf t F :=
  framesOf_applyOp_preserve t (.set key g) F ⟨hf, hkeys⟩

/-! ## Static description of the field blocks of `fix_tags`

Each block only ever deletes frame ids from its own small set and assigns
its own dictionary keys; indexing the blocks lets the per-field proofs
discharge all cross-block disjointness by `decide`. -/

/-- Frame ids, dictionary keys: everything a block may mention. -/
def OpsWithin (ops : List TagOp) (fids keys : List String) : Prop :=
  ∀ op ∈ ops, match op with
  | .del fid => fid ∈ fids
  | .set key g => key ∈ keys ∧ g.fid ∈ fids

theorem opsWithin_avoid (ops : List TagOp) (fids keys : List String) (F k : String)
    (hw : OpsWithin ops fids keys) (hF : F ∉ fids) (hk : k ∉ keys) :
    ∀ op ∈ ops, OpAvoidsSK op F k := by
  intro op hop
  have h := hw op hop
  cases op with
  | del fid => exact fun he => hF (he ▸ h)
  | set key g =>
      rcases (h : key ∈ keys ∧ g.fid ∈ fids) with ⟨h1, h2⟩
      exact ⟨fun he => hk (he ▸ h1), fun he => hF (he ▸ h2)⟩

theorem opsWithin_preserves (ops : List TagOp) (fids keys : List String) (F : String)
    (S : Tags) (hw : OpsWithin ops fids keys) (hF : F ∉ fids)
    (hS : ∀ kv ∈ S, ∀ K ∈ keys, kv.1 ≠ K) :
    ∀ op ∈ ops, OpPreserves op F S := by
  intro op hop
  have h := hw op hop
  cases op with
  | del fid => exact fun he => hF (he ▸ h)
  | set key g =>
      rcases (h : key ∈ keys ∧ g.fid ∈ fids) with ⟨h1, h2⟩
      exact ⟨fun he => hF (he ▸ h2), fun kv hkv => hS kv hkv key h1⟩

/-- The field blocks of `fix_tags` in source order, by index. -/
def blockOf : Nat → CanonicalMetadata → List TagOp
  | 0, p => trckOps p
  | 1, p => woarOps p
  | 2, p => tit2Ops p
  | 3, p => tit3Ops p
  | 4, p => tpe1Ops p
  | 5, p => tpe2Ops p
  | 6, p => tpe3Ops p
  | 7, p => tpe4Ops p
  | 8, p => tproOps p
  | 9, p => tpubOps p
  | 10, p => summaryOps p
  | 11, p => talbOps p
  | 12, p => tposOps p
  | 13, p => categoryOps p
  | 14, p => tcopOps p
  | 15, p => pubdateOps p
  | 16, p => tgidOps p
  | _, _ => []

/-- The frame ids a block may touch. -/
def blockFids : Nat → List String
  | 0 => ["TRCK"]
  | 1 => ["WOAR"]
  | 2 => ["TIT2"]
  | 3 => ["TIT3"]
  | 4 => ["TPE1"]
  | 5 => ["TPE2"]
  | 6 => ["TPE3"]
  | 7 => ["TPE4"]
  | 8 => ["TPRO"]
  | 9 => ["TPUB"]
  | 10 => ["COMM", "TDES"]
  | 11 => ["TALB"]
  | 12 => ["TPOS"]
  | 13 => ["TCAT", "TCON"]
  | 14 => ["TCOP"]
  | 15 => ["TDOR", "TDRC"]
  | 16 => ["TGID"]
  | _ => []

/-- The dictionary keys a block may assign. -/
def blockKeys : Nat → List String
  | 0 => ["TRCK:"]
  | 1 => ["WOAR:"]
  | 2 => ["TIT2:"]
  | 3 => ["TIT3:"]
  | 4 => ["TPE1:"]
  | 5 => ["TPE2:"]
  | 6 => ["TPE3:"]
  | 7 => ["TPE4:"]
  | 8 => ["TPRO:"]
  | 9 => ["TPUB:"]
  | 10 => ["COMM:", "TDES:"]
  | 11 => ["TALB:"]
  | 12 => ["TPOS:"]
  | 13 => ["TCAT:", "TCON:"]
  | 14 => ["TCOP:"]
  | 15 => ["TDOR:", "TDRC:"]
  | 16 => ["TGID:"]
  | _ => []

theorem ifblock2_within (c : Prop) [Decidable c] (fid key : String) (f : Frame)
    (fids keys : List String) (h1 : fid ∈ fids) (h2 : key ∈ keys) (h3 : f.fid ∈ fids) :
    OpsWithin (if c then [TagOp.del fid, TagOp.set key f] else []) fids keys := by
  intro op hop
  split at hop
  · simp only [List.mem_cons, List.not_mem_nil, or_false] at hop
    rcases hop with rfl | rfl
    · exact h1
    · exact ⟨h2, h3⟩
  · simp at hop

theorem ifblock1_within (c : Prop) [Decidable c] (key : String) (f : Frame)
    (fids keys : List String) (h2 : key ∈ keys) (h3 : f.fid ∈ fids) :
    OpsWithin (if c then [TagOp.set key f] else []) fids keys := by
  intro op hop
  split at hop
  · simp only [List.mem_cons, List.not_mem_nil, or_false] at hop
    rcases hop with rfl
    exact ⟨h2, h3⟩
  · simp at hop

theorem block4_within (f1 f2 k1 k2 : String) (g1 g2 : Frame)
    (fids keys : List String) (h1 : f1 ∈ fids) (h2 : f2 ∈ fids) (h3 : k1 ∈ keys)
    (h4 : g1.fid ∈ fids) (h5 : k2 ∈ keys) (h6 : g2.fid ∈ fids) :
    OpsWithin [TagOp.del f1, TagOp.del f2, TagOp.set k1 g1, TagOp.set k2 g2]
      fids keys := by
  intro op hop
  simp only [List.mem_cons, List.not_mem_nil, or_false] at hop
  rcases hop with rfl | rfl | rfl | rfl
  · exact h1
  · exact h2
  · exact ⟨h3, h4⟩
  · exact ⟨h5, h6⟩

theorem summaryOps_within (p : CanonicalMetadata) :
    OpsWithin (summaryOps p) ["COMM", "TDES"] ["COMM:", "TDES:"] := by
  unfold summaryOps
  split
  · exact block4_within _ _ _ _ _ _ _ _ (by simp) (by simp) (by simp) (by simp)
      (by simp) (by simp)
  · intro op hop
    simp at hop

theorem categoryOps_within (p : CanonicalMetadata) :
    OpsWithin (categoryOps p) ["TCAT", "TCON"] ["TCAT:", "TCON:"] := by
  unfold categoryOps
  split
  · exact block4_within _ _ _ _ _ _ _ _ (by simp) (by simp) (by simp) (by simp)
      (by simp) (by simp)
  · intro op hop
    simp only [List.mem_cons, List.not_mem_nil, or_false] at hop
    rcases hop with rfl | rfl
    · simp
    · exact ⟨by simp, by simp⟩

theorem pubdateOps_within (p : CanonicalMetadata) :
    OpsWithin (pubdateOps p) ["TDOR", "TDRC"] ["TDOR:", "TDRC:"] := by
  unfold pubdateOps
  rcases p.pub_date with _ | d
  · intro op hop
    simp at hop
  · exact block4_within _ _ _ _ _ _ _ _ (by simp) (by simp) (by simp) (by simp)
      (by simp) (by simp)

theorem blockOf_within (m : Nat) (p : CanonicalMetadata) :
    OpsWithin (blockOf m p) (blockFids m) (blockKeys m) := by
  match m with
  | 0 => exact ifblock2_within _ _ _ _ _ _ (by simp [blockFids, blockKeys]) (by simp [blockFids, blockKeys]) (by simp [blockFids, blockKeys])
  | 1 => exact ifblock2_within _ _ _ _ _ _ (by simp [blockFids, blockKeys]) (by simp [blockFids, blockKeys]) (by simp [blockFids, blockKeys])
  | 2 => exact ifblock2_within _ _ _ _ _ _ (by simp [blockFids, blockKeys]) (by simp [blockFids, blockKeys]) (by simp [blockFids, blockKeys])
  | 3 => exact ifblock2_within _ _ _ _ _ _ (by simp [blockFids, blockKeys]) (by simp [blockFids, blockKeys]) (by simp [blockFids, blockKeys])
  | 4 => exact ifblock2_within _ _ _ _ _ _ (by simp [blockFids, blockKeys]) (by simp [blockFids, blockKeys]) (by simp [blockFids, blockKeys])
  | 5 => exact ifblock2_within _ _ _ _ _ _ (by simp [blockFids, blockKeys]) (by simp [blockFids, blockKeys]) (by simp [blockFids, blockKeys])
  | 6 => exact ifblock2_within _ _ _ _ _ _ (by simp [blockFids, blockKeys]) (by simp [blockFids, blockKeys]) (by simp [blockFids, blockKeys])
  | 7 => exact ifblock2_within _ _ _ _ _ _ (by simp [blockFids, blockKeys]) (by simp [blockFids, blockKeys]) (by simp [blockFids, blockKeys])
  | 8 => exact ifblock2_within _ _ _ _ _ _ (by simp [blockFids, blockKeys]) (by simp [blockFids, blockKeys]) (by simp [blockFids, blockKeys])
  | 9 => exact ifblock2_within _ _ _ _ _ _ (by simp [blockFids, blockKeys]) (by simp [blockFids, blockKeys]) (by simp [blockFids, blockKeys])
  | 10 => exact summaryOps_within p
  | 11 => exact ifblock2_within _ _ _ _ _ _ (by simp [blockFids, blockKeys]) (by simp [blockFids, blockKeys]) (by simp [blockFids, blockKeys])
  | 12 => exact ifblock2_within _ _ _ _ _ _ (by simp [blockFids, blockKeys]) (by simp [blockFids, blockKeys]) (by simp [blockFids, blockKeys])
  | 13 => exact categoryOps_within p
  | 14 => exact ifblock2_within _ _ _ _ _ _ (by simp [blockFids, blockKeys]) (by simp [blockFids, blockKeys]) (by simp [blockFids, blockKeys])
  | 15 => exact pubdateOps_within p
  | 16 => exact ifblock1_within _ _ _ _ _ (by simp [blockFids, blockKeys]) (by simp [blockFids, blockKeys])
  | (n + 17) =>
      intro op hop
      simp [blockOf] at hop

/-- `synthPure` is the left fold of the indexed blocks. -/
theorem synthPure_eq (p : CanonicalMetadata) (t : Tags) :
    synthPure p t =
      [trckOps p, woarOps p, tit2Ops p, tit3Ops p, tpe1Ops p, tpe2Ops p,
       tpe3Ops p, tpe4Ops p, tproOps p, tpubOps p, summaryOps p, talbOps p,
       tposOps p, categoryOps p, tcopOps p, pubdateOps p,
       tgidOps p].foldl applyOps t := rfl

theorem framesOf_foldl_stable (ls : List (List TagOp)) (t : Tags) (F k : String)
    (f : Frame) (h : framesOf t F = [(k, f)])
    (hops : ∀ ops ∈ ls, ∀ op ∈ ops, OpAvoidsSK op F k) :
    framesOf (ls.foldl applyOps t) F = [(k, f)] := by
  induction ls generalizing t with
  | nil => exact h
  | cons ops ls ih =>
      exact ih (applyOps t ops)
        (framesOf_applyOps_stable ops t F k f h (hops ops (List.mem_cons_self ..)))
        (fun os hos => hops os (List.mem_cons_of_mem _ hos))

theorem framesOf_foldl_preserve (ls : List (List TagOp)) (t : Tags) (F : String)
    (hops : ∀ ops ∈ ls, ∀ op ∈ ops, OpPreserves op F (framesOf t F)) :
    framesOf (ls.foldl applyOps t) F = framesOf t F := by
  induction ls generalizing t with
  | nil => rfl
  | cons ops ls ih =>
      have e : framesOf (applyOps t ops) F = framesOf t F :=
        framesOf_applyOps_preserve ops t F (hops ops (List.mem_cons_self ..))
      have e2 : framesOf (List.foldl applyOps (applyOps t ops) ls) F
          = framesOf (applyOps t ops) F := by
        refine ih (applyOps t ops) ?_
        intro os hos op hop
        rw [e]
        exact hops os (List.mem_cons_of_mem _ hos) op hop
      exact e2.trans e

/-- Once a block has established the unique frame of id `F`, the rest of the
fold cannot disturb it. -/
theorem foldl_present (ls1 ls2 : List (List TagOp)) (ops : List TagOp) (t : Tags)
    (F k : String) (f : Frame)
    (hest : ∀ u, framesOf (applyOps u ops) F = [(k, f)])
    (hrest : ∀ os ∈ ls2, ∀ op ∈ os, OpAvoidsSK op F k) :
    framesOf ((ls1 ++ ops :: ls2).foldl applyOps t) F = [(k, f)] := by
  rw [List.foldl_append, List.foldl_cons]
  exact framesOf_foldl_stable ls2 _ F k f (hest _) hrest

theorem avoid_of_spec (ms : List Nat) (p : CanonicalMetadata) (F k : String)
    (h : ∀ m ∈ ms, F ∉ blockFids m ∧ k ∉ blockKeys m) :
    ∀ os ∈ ms.map (fun m => blockOf m p), ∀ op ∈ os, OpAvoidsSK op F k := by
  intro os hos
  rw [List.mem_map] at hos
  obtain ⟨m, hm, rfl⟩ := hos
  exact opsWithin_avoid _ _ _ _ _ (blockOf_within m p) (h m hm).1 (h m hm).2

theorem preserves_of_spec (ms : List Nat) (p : CanonicalMetadata) (F : String)
    (S : Tags) (h : ∀ m ∈ ms, F ∉ blockFids m)
    (hkeys : ∀ kv ∈ S, ∀ m ∈ ms, ∀ K ∈ blockKeys m, kv.1 ≠ K) :
    ∀ os ∈ ms.map (fun m => blockOf m p), ∀ op ∈ os, OpPreserves op F S := by
  intro os hos
  rw [List.mem_map] at hos
  obtain ⟨m, hm, rfl⟩ := hos
  exact opsWithin_preserves _ _ _ _ _ (blockOf_within m p) (h m hm)
    (fun kv hkv K hK => hkeys kv hkv m hm K hK)

/-! ## Well-formed containers

Frames loaded from an existing file are keyed by their mutagen `HashKey`;
frame ids of real ID3 frames never contain `':'`. -/

/-- The mutagen `HashKey` under which a loaded frame is stored. -/
def hashKey (f : Frame) : String :=
  if f.fid = "APIC" then "APIC:" ++ f.desc
  else if f.fid = "COMM" then "COMM:" ++ f.desc ++ ":" ++ f.lang
  else f.fid

/-- Real frame ids contain no colon. -/
def goodFrame (f : Frame) : Prop := ':' ∉ f.fid.data

/-- A container as mutagen loads it from a file: every frame sits under its
`HashKey` and has a colon-free frame id. -/
def WFTags (t : Tags) : Prop := ∀ kv ∈ t, kv.1 = hashKey kv.2 ∧ goodFrame kv.2

instance : DecidablePred goodFrame := fun f => by
  unfold goodFrame
  infer_instance

instance (t : Tags) : Decidable (WFTags t) := by
  unfold WFTags
  infer_instance

/-- Every dictionary key assigned by the seventeen field blocks. -/
def blockKeysAll : List String :=
  ["TRCK:", "WOAR:", "TIT2:", "TIT3:", "TPE1:", "TPE2:", "TPE3:", "TPE4:",
   "TPRO:", "TPUB:", "COMM:", "TDES:", "TALB:", "TPOS:", "TCAT:", "TCON:",
   "TCOP:", "TDOR:", "TDRC:", "TGID:"]

theorem blockKeys_sub :
    ∀ m ∈ ([0, 1, 2, 3, 4, 5, 6, 7, 8, 9, 10, 11, 12, 13, 14, 15, 16] : List Nat),
      ∀ K ∈ blockKeys m, K ∈ blockKeysAll := by decide

theorem framesOf_wf (t : Tags) (F : String) (hWF : WFTags t) :
    ∀ kv ∈ framesOf t F, kv.1 = hashKey kv.2 ∧ goodFrame kv.2 ∧ kv.2.fid = F := by
  intro kv hkv
  rw [framesOf, List.mem_filter] at hkv
  rcases hkv with ⟨hm, hf⟩
  have h := hWF kv hm
  exact ⟨h.1, h.2, by simpa using hf⟩

/-- The dictionary keys assigned anywhere in `fix_tags`
(the podcast-flag and artwork assignments plus the field blocks). -/
def writtenKeysAll : List String := ["PCST:", "APIC:"] ++ blockKeysAll

/-- All assigned keys except the artwork key. -/
def nonApicKeys : List String := ["PCST:"] ++ blockKeysAll

/-- Loaded frames of an ordinary text frame id sit under the frame id itself,
which collides with no assigned dictionary key. -/
theorem textual_keys (t : Tags) (F : String) (hWF : WFTags t)
    (hAP : F ≠ "APIC") (hCO : F ≠ "COMM") (Ks : List String)
    (hall : ∀ K ∈ Ks, F ≠ K) :
    ∀ kv ∈ framesOf t F, ∀ K ∈ Ks, kv.1 ≠ K := by
  intro kv hkv K hK
  obtain ⟨h1, _, h3⟩ := framesOf_wf t F hWF kv hkv
  rw [h1]
  unfold hashKey
  rw [h3, if_neg hAP, if_neg hCO]
  exact hall K hK

theorem apic_hash_ne (d : String) : ∀ K ∈ nonApicKeys, ("APIC:" ++ d) ≠ K := by
  have hhead : ("APIC:" ++ d).data.head? = some 'A' := rfl
  intro K hK
  fin_cases hK <;> exact fun he => absurd (he ▸ hhead) (by decide)

theorem comm_hash_ne (d l : String) :
    ∀ K ∈ writtenKeysAll, ("COMM:" ++ d ++ ":" ++ l) ≠ K := by
  have hlen : ("COMM:" ++ d ++ ":" ++ l).length = 5 + d.length + 1 + l.length := by
    rw [String.length_append, String.length_append, String.length_append,
      show ("COMM:" : String).length = 5 from rfl,
      show (":" : String).length = 1 from rfl]
  have hhead : ("COMM:" ++ d ++ ":" ++ l).data.head? = some 'C' := rfl
  intro K hK
  fin_cases hK <;> intro he
  all_goals first
    | exact absurd (he ▸ hhead) (by decide)
    | (have h2 := he ▸ hlen
       rw [show ("COMM:" : String).length = 5 from rfl] at h2
       omega)

/-- Keys of loaded `APIC` frames avoid all block-assigned keys. -/
theorem apic_keys (t : Tags) (hWF : WFTags t) :
    ∀ kv ∈ framesOf t "APIC", ∀ K ∈ nonApicKeys, kv.1 ≠ K := by
  intro kv hkv K hK
  obtain ⟨h1, _, h3⟩ := framesOf_wf t "APIC" hWF kv hkv
  rw [h1]
  unfold hashKey
  rw [h3, if_pos rfl]
  exact apic_hash_ne kv.2.desc K hK

/-- Keys of loaded `COMM` frames avoid all block-assigned keys. -/
theorem comm_keys (t : Tags) (hWF : WFTags t) :
    ∀ kv ∈ framesOf t "COMM", ∀ K ∈ writtenKeysAll, kv.1 ≠ K := by
  intro kv hkv K hK
  obtain ⟨h1, _, h3⟩ := framesOf_wf t "COMM" hWF kv hkv
  rw [h1]
  unfold hashKey
  rw [h3, if_neg (by decide), if_pos rfl]
  exact comm_hash_ne kv.2.desc kv.2.lang K hK

/-! ## Establishment lemmas for the four-mutation blocks -/

theorem framesOf_establish4_fst (u : Tags) (A B ka kb : String) (ga gb : Frame)
    (hga : ga.fid = A) (hgb : gb.fid ≠ A) (hAB : A ≠ B) (hk : ka ≠ kb) :
    framesOf (applyOps u [.del A, .del B, .set ka ga, .set kb gb]) A = [(ka, ga)] := by
  show framesOf (setitem (setitem (delall (delall u A) B) ka ga) kb gb) A = _
  rw [framesOf_setitem, framesOf_setitem, framesOf_delall_ne _ _ _ hAB,
    framesOf_delall_self]
  simp [hga, hgb, hk]

theorem framesOf_establish4_snd (u : Tags) (A B ka kb : String) (ga gb : Frame)
    (hgb : gb.fid = B) (hga : ga.fid ≠ B) :
    framesOf (applyOps u [.del A, .del B, .set ka ga, .set kb gb]) B = [(kb, gb)] := by
  show framesOf (setitem (setitem (delall (delall u A) B) ka ga) kb gb) B = _
  rw [framesOf_setitem, framesOf_setitem, framesOf_delall_self]
  simp [hga, hgb]

/-! ## Field-level behaviour of the pure block chain -/

/-- A field whose block is inactive (or beyond the last index) leaves its
frame id untouched, provided the loaded keys avoid all block keys. -/
theorem synth_absent (p : CanonicalMetadata) (t : Tags) (F : String) (j : Nat)
    (hj : blockOf j p = [])
    (hF : ∀ m ∈ ([0, 1, 2, 3, 4, 5, 6, 7, 8, 9, 10, 11, 12, 13, 14, 15, 16] : List Nat),
      m ≠ j → F ∉ blockFids m)
    (hkeys : ∀ kv ∈ framesOf t F, ∀ K ∈ blockKeysAll, kv.1 ≠ K) :
    framesOf (synthPure p t) F = framesOf t F := by
  rw [synthPure_eq]
  refine framesOf_foldl_preserve
    (([0, 1, 2, 3, 4, 5, 6, 7, 8, 9, 10, 11, 12, 13, 14, 15, 16] : List Nat).map
      (fun m => blockOf m p)) t F ?_
  intro os hos op hop
  rw [List.mem_map] at hos
  obtain ⟨m, hm, rfl⟩ := hos
  by_cases hmj : m = j
  · subst hmj
    rw [hj] at hop
    simp at hop
  · exact opsWithin_preserves _ _ _ _ _ (blockOf_within m p) (hF m hm hmj)
      (fun kv hkv K hK => hkeys kv hkv K (blockKeys_sub m hm K hK)) op hop

theorem mem_foldl_blocks (ls : List (List TagOp)) (t : Tags) (k : String) (f : Frame)
    (hmem : (k, f) ∈ t) (hops : ∀ os ∈ ls, ∀ op ∈ os, OpAvoidsSK op f.fid k) :
    (k, f) ∈ ls.foldl applyOps t := by
  induction ls generalizing t with
  | nil => exact hmem
  | cons os ls ih =>
      exact ih (applyOps t os)
        (mem_applyOps os t k f hmem (hops os (List.mem_cons_self ..)))
        (fun os2 hos2 => hops os2 (List.mem_cons_of_mem _ hos2))

/-- Shorthand for the index lists used to slice the block chain. -/
def blocksFrom (p : CanonicalMetadata) (ms : List Nat) : List (List TagOp) :=
  ms.map (fun m => blockOf m p)

theorem synth_trck_present (p : CanonicalMetadata) (t : Tags)
    (hp : p.episode_number ≠ 0) :
    framesOf (synthPure p t) "TRCK"
      = [("TRCK:", { fid := "TRCK", text := toString p.episode_number })] := by
  rw [synthPure_eq]
  refine foldl_present (blocksFrom p [])
    (blocksFrom p [1, 2, 3, 4, 5, 6, 7, 8, 9, 10, 11, 12, 13, 14, 15, 16])
    (trckOps p) t "TRCK" "TRCK:" _ ?_ (avoid_of_spec _ p _ _ (by decide))
  intro u
  unfold trckOps
  rw [if_pos hp]
  exact framesOf_establish u "TRCK" "TRCK:" _ rfl

theorem synth_woar_present (p : CanonicalMetadata) (t : Tags)
    (hp : truthyS p.episode_url = true) :
    framesOf (synthPure p t) "WOAR"
      = [("WOAR:", { fid := "WOAR", text := getS p.episode_url })] := by
  rw [synthPure_eq]
  refine foldl_present (blocksFrom p [0])
    (blocksFrom p [2, 3, 4, 5, 6, 7, 8, 9, 10, 11, 12, 13, 14, 15, 16])
    (woarOps p) t "WOAR" "WOAR:" _ ?_ (avoid_of_spec _ p _ _ (by decide))
  intro u
  unfold woarOps
  rw [if_pos hp]
  exact framesOf_establish u "WOAR" "WOAR:" _ rfl

theorem synth_tit2_present (p : CanonicalMetadata) (t : Tags)
    (hp : truthyS p.episode_title = true) :
    framesOf (synthPure p t) "TIT2"
      = [("TIT2:", { fid := "TIT2", text := getS p.episode_title })] := by
  rw [synthPure_eq]
  refine foldl_present (blocksFrom p [0, 1])
    (blocksFrom p [3, 4, 5, 6, 7, 8, 9, 10, 11, 12, 13, 14, 15, 16])
    (tit2Ops p) t "TIT2" "TIT2:" _ ?_ (avoid_of_spec _ p _ _ (by decide))
  intro u
  unfold tit2Ops
  rw [if_pos hp]
  exact framesOf_establish u "TIT2" "TIT2:" _ rfl

theorem synth_tit3_present (p : CanonicalMetadata) (t : Tags)
    (hp : truthyS p.episode_subtitle = true) :
    framesOf (synthPure p t) "TIT3"
      = [("TIT3:", { fid := "TIT3", text := getS p.episode_subtitle })] := by
  rw [synthPure_eq]
  refine foldl_present (blocksFrom p [0, 1, 2])
    (blocksFrom p [4, 5, 6, 7, 8, 9, 10, 11, 12, 13, 14, 15, 16])
    (tit3Ops p) t "TIT3" "TIT3:" _ ?_ (avoid_of_spec _ p _ _ (by decide))
  intro u
  unfold tit3Ops
  rw [if_pos hp]
  exact framesOf_establish u "TIT3" "TIT3:" _ rfl

theorem synth_tpe1_present (p : CanonicalMetadata) (t : Tags)
    (hp : truthySL p.hosts = true) :
    framesOf (synthPure p t) "TPE1"
      = [("TPE1:", { fid := "TPE1", text := getSL p.hosts })] := by
  rw [synthPure_eq]
  refine foldl_present (blocksFrom p [0, 1, 2, 3])
    (blocksFrom p [5, 6, 7, 8, 9, 10, 11, 12, 13, 14, 15, 16])
    (tpe1Ops p) t "TPE1" "TPE1:" _ ?_ (avoid_of_spec _ p _ _ (by decide))
  intro u
  unfold tpe1Ops
  rw [if_pos hp]
  exact framesOf_establish u "TPE1" "TPE1:" _ rfl

theorem synth_tpe2_present (p : CanonicalMetadata) (t : Tags)
    (hp : truthySL p.guests = true) :
    framesOf (synthPure p t) "TPE2"
      = [("TPE2:", { fid := "TPE2", text := getSL p.guests })] := by
  rw [synthPure_eq]
  refine foldl_present (blocksFrom p [0, 1, 2, 3, 4])
    (blocksFrom p [6, 7, 8, 9, 10, 11, 12, 13, 14, 15, 16])
    (tpe2Ops p) t "TPE2" "TPE2:" _ ?_ (avoid_of_spec _ p _ _ (by decide))
  intro u
  unfold tpe2Ops
  rw [if_pos hp]
  exact framesOf_establish u "TPE2" "TPE2:" _ rfl

theorem synth_tpe3_present (p : CanonicalMetadata) (t : Tags)
    (hp : truthySL p.directors = true) :
    framesOf (synthPure p t) "TPE3"
      = [("TPE3:", { fid := "TPE3", text := getSL p.directors })] := by
  rw [synthPure_eq]
  refine foldl_present (blocksFrom p [0, 1, 2, 3, 4, 5])
    (blocksFrom p [7, 8, 9, 10, 11, 12, 13, 14, 15, 16])
    (tpe3Ops p) t "TPE3" "TPE3:" _ ?_ (avoid_of_spec _ p _ _ (by decide))
  intro u
  unfold tpe3Ops
  rw [if_pos hp]
  exact framesOf_establish u "TPE3" "TPE3:" _ rfl

theorem synth_tpe4_present (p : CanonicalMetadata) (t : Tags)
    (hp : truthySL p.editors = true) :
    framesOf (synthPure p t) "TPE4"
      = [("TPE4:", { fid := "TPE4", text := getSL p.editors })] := by
  rw [synthPure_eq]
  refine foldl_present (blocksFrom p [0, 1, 2, 3, 4, 5, 6])
    (blocksFrom p [8, 9, 10, 11, 12, 13, 14, 15, 16])
    (tpe4Ops p) t "TPE4" "TPE4:" _ ?_ (avoid_of_spec _ p _ _ (by decide))
  intro u
  unfold tpe4Ops
  rw [if_pos hp]
  exact framesOf_establish u "TPE4" "TPE4:" _ rfl

theorem synth_tpro_present (p : CanonicalMetadata) (t : Tags)
    (hp : truthySL p.producers = true) :
    framesOf (synthPure p t) "TPRO"
      = [("TPRO:", { fid := "TPRO", text := getSL p.producers })] := by
  rw [synthPure_eq]
  refine foldl_present (blocksFrom p [0, 1, 2, 3, 4, 5, 6, 7])
    (blocksFrom p [9, 10, 11, 12, 13, 14, 15, 16])
    (tproOps p) t "TPRO" "TPRO:" _ ?_ (avoid_of_spec _ p _ _ (by decide))
  intro u
  unfold tproOps
  rw [if_pos hp]
  exact framesOf_establish u "TPRO" "TPRO:" _ rfl

theorem synth_tpub_present (p : CanonicalMetadata) (t : Tags)
    (hp : truthyS p.publisher = true) :
    framesOf (synthPure p t) "TPUB"
      = [("TPUB:", { fid := "TPUB", text := getS p.publisher })] := by
  rw [synthPure_eq]
  refine foldl_present (blocksFrom p [0, 1, 2, 3, 4, 5, 6, 7, 8])
    (blocksFrom p [10, 11, 12, 13, 14, 15, 16])
    (tpubOps p) t "TPUB" "TPUB:" _ ?_ (avoid_of_spec _ p _ _ (by decide))
  intro u
  unfold tpubOps
  rw [if_pos hp]
  exact framesOf_establish u "TPUB" "TPUB:" _ rfl

theorem synth_comm_present (p : CanonicalMetadata) (t : Tags)
    (hp : truthyS p.summary = true) :
    framesOf (synthPure p t) "COMM"
      = [("COMM:", { fid := "COMM", lang := "eng", desc := "Summary", text := getS p.summary })] := by
  rw [synthPure_eq]
  refine foldl_present (blocksFrom p [0, 1, 2, 3, 4, 5, 6, 7, 8, 9])
    (blocksFrom p [11, 12, 13, 14, 15, 16])
    (summaryOps p) t "COMM" "COMM:" _ ?_ (avoid_of_spec _ p _ _ (by decide))
  intro u
  unfold summaryOps
  rw [if_pos hp]
  exact framesOf_establish4_fst u "COMM" "TDES" "COMM:" "TDES:" _ _ rfl
    (by decide : ("TDES" : String) ≠ "COMM") (by decide) (by decide)

theorem synth_tdes_present (p : CanonicalMetadata) (t : Tags)
    (hp : truthyS p.summary = true) :
    framesOf (synthPure p t) "TDES"
      = [("TDES:", { fid := "TDES", text := getS p.summary })] := by
  rw [synthPure_eq]
  refine foldl_present (blocksFrom p [0, 1, 2, 3, 4, 5, 6, 7, 8, 9])
    (blocksFrom p [11, 12, 13, 14, 15, 16])
    (summaryOps p) t "TDES" "TDES:" _ ?_ (avoid_of_spec _ p _ _ (by decide))
  intro u
  unfold summaryOps
  rw [if_pos hp]
  exact framesOf_establish4_snd u "COMM" "TDES" "COMM:" "TDES:" _ _ rfl
    (by decide : ("COMM" : String) ≠ "TDES")

theorem synth_talb_present (p : CanonicalMetadata) (t : Tags)
    (hp : truthyS p.album = true) :
    framesOf (synthPure p t) "TALB"
      = [("TALB:", { fid := "TALB", text := getS p.album })] := by
  rw [synthPure_eq]
  refine foldl_present (blocksFrom p [0, 1, 2, 3, 4, 5, 6, 7, 8, 9, 10])
    (blocksFrom p [12, 13, 14, 15, 16])
    (talbOps p) t "TALB" "TALB:" _ ?_ (avoid_of_spec _ p _ _ (by decide))
  intro u
  unfold talbOps
  rw [if_pos hp]
  exact framesOf_establish u "TALB" "TALB:" _ rfl

theorem synth_tpos_present (p : CanonicalMetadata) (t : Tags)
    (hp : truthyS p.season = true) :
    framesOf (synthPure p t) "TPOS"
      = [("TPOS:", { fid := "TPOS", text := getS p.season })] := by
  rw [synthPure_eq]
  refine foldl_present (blocksFrom p [0, 1, 2, 3, 4, 5, 6, 7, 8, 9, 10, 11])
    (blocksFrom p [13, 14, 15, 16])
    (tposOps p) t "TPOS" "TPOS:" _ ?_ (avoid_of_spec _ p _ _ (by decide))
  intro u
  unfold tposOps
  rw [if_pos hp]
  exact framesOf_establish u "TPOS" "TPOS:" _ rfl

theorem synth_tcat_present (p : CanonicalMetadata) (t : Tags)
    (hp : truthySL p.category = true) :
    framesOf (synthPure p t) "TCAT"
      = [("TCAT:", { fid := "TCAT", text := getSL p.category })] := by
  rw [synthPure_eq]
  refine foldl_present (blocksFrom p [0, 1, 2, 3, 4, 5, 6, 7, 8, 9, 10, 11, 12])
    (blocksFrom p [14, 15, 16])
    (categoryOps p) t "TCAT" "TCAT:" _ ?_ (avoid_of_spec _ p _ _ (by decide))
  intro u
  unfold categoryOps
  rw [if_pos hp]
  exact framesOf_establish4_fst u "TCAT" "TCON" "TCAT:" "TCON:" _ _ rfl
    (by decide : ("TCON" : String) ≠ "TCAT") (by decide) (by decide)

theorem synth_tcon_present (p : CanonicalMetadata) (t : Tags)
    (hp : truthySL p.category = true) :
    framesOf (synthPure p t) "TCON"
      = [("TCON:", { fid := "TCON", text := getSL p.category ++ ", Podcast" })] := by
  rw [synthPure_eq]
  refine foldl_present (blocksFrom p [0, 1, 2, 3, 4, 5, 6, 7, 8, 9, 10, 11, 12])
    (blocksFrom p [14, 15, 16])
    (categoryOps p) t "TCON" "TCON:" _ ?_ (avoid_of_spec _ p _ _ (by decide))
  intro u
  unfold categoryOps
  rw [if_pos hp]
  exact framesOf_establish4_snd u "TCAT" "TCON" "TCAT:" "TCON:" _ _ rfl
    (by decide : ("TCAT" : String) ≠ "TCON")

/-- With no category, `fix_tags` still rewrites `TCON` to the default genre. -/
theorem synth_tcon_default (p : CanonicalMetadata) (t : Tags)
    (hp : truthySL p.category = false) :
    framesOf (synthPure p t) "TCON"
      = [("TCON:", { fid := "TCON", text := "Podcast" })] := by
  rw [synthPure_eq]
  refine foldl_present (blocksFrom p [0, 1, 2, 3, 4, 5, 6, 7, 8, 9, 10, 11, 12])
    (blocksFrom p [14, 15, 16])
    (categoryOps p) t "TCON" "TCON:" _ ?_ (avoid_of_spec _ p _ _ (by decide))
  intro u
  unfold categoryOps
  rw [if_neg (by simp [hp])]
  exact framesOf_establish u "TCON" "TCON:" _ rfl

theorem synth_tcop_present (p : CanonicalMetadata) (t : Tags)
    (hp : truthyS p.copyright = true) :
    framesOf (synthPure p t) "TCOP"
      = [("TCOP:", { fid := "TCOP", text := getS p.copyright })] := by
  rw [synthPure_eq]
  refine foldl_present (blocksFrom p [0, 1, 2, 3, 4, 5, 6, 7, 8, 9, 10, 11, 12, 13])
    (blocksFrom p [15, 16])
    (tcopOps p) t "TCOP" "TCOP:" _ ?_ (avoid_of_spec _ p _ _ (by decide))
  intro u
  unfold tcopOps
  rw [if_pos hp]
  exact framesOf_establish u "TCOP" "TCOP:" _ rfl

theorem synth_tdor_present (p : CanonicalMetadata) (t : Tags) (d : PubDate)
    (hd : p.pub_date = some d) :
    framesOf (synthPure p t) "TDOR"
      = [("TDOR:", { fid := "TDOR", text := d.utcIso })] := by
  rw [synthPure_eq]
  refine foldl_present (blocksFrom p [0, 1, 2, 3, 4, 5, 6, 7, 8, 9, 10, 11, 12, 13, 14])
    (blocksFrom p [16])
    (pubdateOps p) t "TDOR" "TDOR:" _ ?_ (avoid_of_spec _ p _ _ (by decide))
  intro u
  unfold pubdateOps
  rw [hd]
  exact framesOf_establish4_fst u "TDOR" "TDRC" "TDOR:" "TDRC:" _ _ rfl
    (by decide : ("TDRC" : String) ≠ "TDOR") (by decide) (by decide)

theorem synth_tdrc_present (p : CanonicalMetadata) (t : Tags) (d : PubDate)
    (hd : p.pub_date = some d) :
    framesOf (synthPure p t) "TDRC"
      = [("TDRC:", { fid := "TDRC", text := toString d.utcYear })] := by
  rw [synthPure_eq]
  refine foldl_present (blocksFrom p [0, 1, 2, 3, 4, 5, 6, 7, 8, 9, 10, 11, 12, 13, 14])
    (blocksFrom p [16])
    (pubdateOps p) t "TDRC" "TDRC:" _ ?_ (avoid_of_spec _ p _ _ (by decide))
  intro u
  unfold pubdateOps
  rw [hd]
  exact framesOf_establish4_snd u "TDOR" "TDRC" "TDOR:" "TDRC:" _ _ rfl
    (by decide : ("TDOR" : String) ≠ "TDRC")

/-- The `TGID` block has no `delall`: it merely assigns the new frame. -/
theorem synth_tgid_present (p : CanonicalMetadata) (t : Tags)
    (hp : truthyS p.episode_id = true) :
    ("TGID:", { fid := "TGID", text := getS p.episode_id }) ∈ synthPure p t := by
  unfold synthPure
  have he : tgidOps p = [.set "TGID:" { fid := "TGID", text := getS p.episode_id }] := by
    unfold tgidOps
    rw [if_pos hp]
  rw [he]
  exact mem_setitem_self _ _ _

/-- With the category absent, the `TCAT` frames are untouched (only `TCON`
is rewritten by the default-genre branch). -/
theorem synth_tcat_absent (p : CanonicalMetadata) (t : Tags)
    (hp : truthySL p.category = false)
    (hkeys : ∀ kv ∈ framesOf t "TCAT", ∀ K ∈ blockKeysAll, kv.1 ≠ K) :
    framesOf (synthPure p t) "TCAT" = framesOf t "TCAT" := by
  rw [synthPure_eq]
  refine framesOf_foldl_preserve
    (([0, 1, 2, 3, 4, 5, 6, 7, 8, 9, 10, 11, 12, 13, 14, 15, 16] : List Nat).map
      (fun m => blockOf m p)) t "TCAT" ?_
  intro os hos op hop
  rw [List.mem_map] at hos
  obtain ⟨m, hm, rfl⟩ := hos
  by_cases hmj : m = 13
  · subst hmj
    have he : blockOf 13 p
        = [.del "TCON", .set "TCON:" { fid := "TCON", text := "Podcast" }] := by
      show categoryOps p = _
      unfold categoryOps
      rw [if_neg (by simp [hp])]
    rw [he] at hop
    simp only [List.mem_cons, List.not_mem_nil, or_false] at hop
    rcases hop with rfl | rfl
    · exact (by decide : ("TCON" : String) ≠ "TCAT")
    · exact ⟨by decide, fun kv hkv => hkeys kv hkv "TCON:" (by decide)⟩
  · exact opsWithin_preserves _ _ _ _ _ (blockOf_within m p)
      ((by decide :
        ∀ m ∈ ([0, 1, 2, 3, 4, 5, 6, 7, 8, 9, 10, 11, 12, 13, 14, 15, 16] : List Nat),
          m ≠ 13 → "TCAT" ∉ blockFids m) m hm hmj)
      (fun kv hkv K hK => hkeys kv hkv K (blockKeys_sub m hm K hK)) op hop

/-! ## Decomposing a successful `fix_tags` run -/

/-- A successful `fix_tags` run is the pure block chain applied to the
container after the `PCST` assignment and (when a non-empty artwork URL is
present) the `APIC` assignment; inline artwork bytes never yield `ok`. -/
theorem fix_tags_ok_decomp (dl : String → List Nat × String) (t : Tags)
    (p : CanonicalMetadata) (t' : Tags) (h : fix_tags dl t p = .ok t') :
    ∃ u, t' = synthPure p u ∧
      ((truthyArt p.episode_art = false ∧ u = setitem t "PCST:" pcstFrame) ∨
       (∃ v, p.episode_art = some (.url v) ∧ v.isEmpty = false ∧
          u = setitem (setitem t "PCST:" pcstFrame) "APIC:"
                (apicFrame (dl v).1 (dl v).2))) := by
  unfold fix_tags at h
  rcases hart : stepArt dl p (setitem t "PCST:" pcstFrame) with e | u
  · rw [hart] at h
    exact (Except.noConfusion h)
  · rw [hart] at h
    injection h with h2
    refine ⟨u, h2.symm, ?_⟩
    unfold stepArt at hart
    rcases ha : p.episode_art with _ | a
    · rw [ha] at hart
      injection hart with h3
      exact .inl ⟨by simp [truthyArt, ha], h3.symm⟩
    · cases a with
      | url v =>
          rw [ha] at hart
          have hart2 : (if v.isEmpty = true then
                Except.ok (setitem t "PCST:" pcstFrame)
              else Except.ok (setitem (setitem t "PCST:" pcstFrame) "APIC:"
                (apicFrame (dl v).1 (dl v).2))) = Except.ok u := hart
          by_cases hv : v.isEmpty = true
          · rw [if_pos hv] at hart2
            injection hart2 with h3
            exact .inl ⟨by simp [truthyArt, ha, hv], h3.symm⟩
          · rw [if_neg hv] at hart2
            injection hart2 with h3
            exact .inr ⟨v, rfl, by simpa using hv, h3.symm⟩
      | blob b =>
          rw [ha] at hart
          have hart2 : (if b.isEmpty = true then
                Except.ok (setitem t "PCST:" pcstFrame)
              else (Except.error
                "UnboundLocalError: mimetype referenced before assignment" :
                  Except String Tags)) = Except.ok u := hart
          by_cases hb : b.isEmpty = true
          · rw [if_pos hb] at hart2
            injection hart2 with h3
            exact .inl ⟨by simp [truthyArt, ha, List.isEmpty_iff.mp hb], h3.symm⟩
          · rw [if_neg hb] at hart2
            exact (Except.noConfusion hart2)

/-- The `PCST` and `APIC` assignments touch no other frame id, provided the
loaded keys avoid the assigned keys. -/
theorem prefix_preserve (dl : String → List Nat × String) (t u : Tags)
    (p : CanonicalMetadata) (F : String)
    (hdec : (truthyArt p.episode_art = false ∧ u = setitem t "PCST:" pcstFrame) ∨
       (∃ v, p.episode_art = some (.url v) ∧ v.isEmpty = false ∧
          u = setitem (setitem t "PCST:" pcstFrame) "APIC:"
                (apicFrame (dl v).1 (dl v).2)))
    (hP : F ≠ "PCST") (hA : F ≠ "APIC")
    (hkeys : ∀ kv ∈ framesOf t F, ∀ K ∈ writtenKeysAll, kv.1 ≠ K) :
    framesOf u F = framesOf t F := by
  have h0 : framesOf (setitem t "PCST:" pcstFrame) F = framesOf t F :=
    framesOf_setitem_preserve t "PCST:" pcstFrame F (Ne.symm hP)
      (fun kv hkv => hkeys kv hkv "PCST:" (by decide))
  rcases hdec with ⟨_, hu⟩ | ⟨v, _, _, hu⟩
  · rw [hu]
    exact h0
  · rw [hu]
    have h1 : framesOf
        (setitem (setitem t "PCST:" pcstFrame) "APIC:" (apicFrame (dl v).1 (dl v).2)) F
        = framesOf (setitem t "PCST:" pcstFrame) F :=
      framesOf_setitem_preserve _ "APIC:" _ F (Ne.symm hA)
        (fun kv hkv => by
          rw [h0] at hkv
          exact hkeys kv hkv "APIC:" (by decide))
    exact h1.trans h0

/-- Ordinary absent field: the whole rewrite leaves its frames untouched. -/
theorem absent_textual (dl : String → List Nat × String) (t u : Tags)
    (p : CanonicalMetadata) (F : String) (j : Nat)
    (hdec : (truthyArt p.episode_art = false ∧ u = setitem t "PCST:" pcstFrame) ∨
       (∃ v, p.episode_art = some (.url v) ∧ v.isEmpty = false ∧
          u = setitem (setitem t "PCST:" pcstFrame) "APIC:"
                (apicFrame (dl v).1 (dl v).2)))
    (hWF : WFTags t)
    (hP : F ≠ "PCST") (hA : F ≠ "APIC") (hC : F ≠ "COMM")
    (hall : ∀ K ∈ writtenKeysAll, F ≠ K)
    (hj : blockOf j p = [])
    (hF : ∀ m ∈ ([0, 1, 2, 3, 4, 5, 6, 7, 8, 9, 10, 11, 12, 13, 14, 15, 16] : List Nat),
      m ≠ j → F ∉ blockFids m) :
    framesOf (synthPure p u) F = framesOf t F := by
  have hsub : ∀ K ∈ blockKeysAll, K ∈ writtenKeysAll := by decide
  have hkeys := textual_keys t F hWF hA hC writtenKeysAll hall
  have hpre := prefix_preserve dl t u p F hdec hP hA hkeys
  have habs := synth_absent p u F j hj hF
    (fun kv hkv K hK => by
      rw [hpre] at hkv
      exact hkeys kv hkv K (hsub K hK))
  exact habs.trans hpre

/-- C10: every successful MP3 tag rewrite carries the `PCST` podcast-flag
frame with value 1, whatever the metadata. -/
theorem fix_tags_always_pcst (dl : String → List Nat × String) (t : Tags)
    (p : CanonicalMetadata) (t' : Tags) (h : fix_tags dl t p = .ok t') :
    ("PCST:", pcstFrame) ∈ t' := by
  obtain ⟨u, ht', hdec⟩ := fix_tags_ok_decomp dl t p t' h
  have hm : ("PCST:", pcstFrame) ∈ u := by
    rcases hdec with ⟨_, hu⟩ | ⟨v, _, _, hu⟩
    · rw [hu]
      exact mem_setitem_self ..
    · rw [hu]
      exact mem_setitem_of_ne _ _ _ _ _ (by decide) (mem_setitem_self ..)
  rw [ht', synthPure_eq]
  exact mem_foldl_blocks
    (blocksFrom p [0, 1, 2, 3, 4, 5, 6, 7, 8, 9, 10, 11, 12, 13, 14, 15, 16]) u _ _ hm
    (avoid_of_spec _ p "PCST" "PCST:" (by decide))

/-- C2 (amended): on a well-formed container, a successful `fix_tags` run
clears all frames of each present field's tag types and writes exactly one
new frame per tag type with the current (stringified / comma-joined) value;
absent fields leave their tag types untouched, except category, whose
absence still rewrites `TCON` to the default genre `"Podcast"` — with the
exception forced by the code that `episode_art` (`APIC`) and `episode_id`
(`TGID`) write their new frame without clearing stale frames of those
types. -/
theorem fix_tags_clear_then_write (dl : String → List Nat × String) (t : Tags)
    (p : CanonicalMetadata) (t' : Tags)
    (hWF : WFTags t) (hfx : fix_tags dl t p = .ok t') :
    (p.episode_number ≠ 0 →
      framesOf t' "TRCK" = [("TRCK:", { fid := "TRCK", text := toString p.episode_number })]) ∧
    (p.episode_number = 0 → framesOf t' "TRCK" = framesOf t "TRCK") ∧
    (truthyS p.episode_url = true →
      framesOf t' "WOAR" = [("WOAR:", { fid := "WOAR", text := getS p.episode_url })]) ∧
    (truthyS p.episode_url = false → framesOf t' "WOAR" = framesOf t "WOAR") ∧
    (truthyS p.episode_title = true →
      framesOf t' "TIT2" = [("TIT2:", { fid := "TIT2", text := getS p.episode_title })]) ∧
    (truthyS p.episode_title = false → framesOf t' "TIT2" = framesOf t "TIT2") ∧
    (truthyS p.episode_subtitle = true →
      framesOf t' "TIT3" = [("TIT3:", { fid := "TIT3", text := getS p.episode_subtitle })]) ∧
    (truthyS p.episode_subtitle = false → framesOf t' "TIT3" = framesOf t "TIT3") ∧
    (truthySL p.hosts = true →
      framesOf t' "TPE1" = [("TPE1:", { fid := "TPE1", text := getSL p.hosts })]) ∧
    (truthySL p.hosts = false → framesOf t' "TPE1" = framesOf t "TPE1") ∧
    (truthySL p.guests = true →
      framesOf t' "TPE2" = [("TPE2:", { fid := "TPE2", text := getSL p.guests })]) ∧
    (truthySL p.guests = false → framesOf t' "TPE2" = framesOf t "TPE2") ∧
    (truthySL p.directors = true →
      framesOf t' "TPE3" = [("TPE3:", { fid := "TPE3", text := getSL p.directors })]) ∧
    (truthySL p.directors = false → framesOf t' "TPE3" = framesOf t "TPE3") ∧
    (truthySL p.editors = true →
      framesOf t' "TPE4" = [("TPE4:", { fid := "TPE4", text := getSL p.editors })]) ∧
    (truthySL p.editors = false → framesOf t' "TPE4" = framesOf t "TPE4") ∧
    (truthySL p.producers = true →
      framesOf t' "TPRO" = [("TPRO:", { fid := "TPRO", text := getSL p.producers })]) ∧
    (truthySL p.producers = false → framesOf t' "TPRO" = framesOf t "TPRO") ∧
    (truthyS p.publisher = true →
      framesOf t' "TPUB" = [("TPUB:", { fid := "TPUB", text := getS p.publisher })]) ∧
    (truthyS p.publisher = false → framesOf t' "TPUB" = framesOf t "TPUB") ∧
    (truthyS p.summary = true →
      framesOf t' "COMM" = [("COMM:", { fid := "COMM", lang := "eng", desc := "Summary", text := getS p.summary })] ∧
      framesOf t' "TDES" = [("TDES:", { fid := "TDES", text := getS p.summary })]) ∧
    (truthyS p.summary = false →
      framesOf t' "COMM" = framesOf t "COMM" ∧
      framesOf t' "TDES" = framesOf t "TDES") ∧
    (truthyS p.album = true →
      framesOf t' "TALB" = [("TALB:", { fid := "TALB", text := getS p.album })]) ∧
    (truthyS p.album = false → framesOf t' "TALB" = framesOf t "TALB") ∧
    (truthyS p.season = true →
      framesOf t' "TPOS" = [("TPOS:", { fid := "TPOS", text := getS p.season })]) ∧
    (truthyS p.season = false → framesOf t' "TPOS" = framesOf t "TPOS") ∧
    (truthySL p.category = true →
      framesOf t' "TCAT" = [("TCAT:", { fid := "TCAT", text := getSL p.category })] ∧
      framesOf t' "TCON" = [("TCON:", { fid := "TCON", text := getSL p.category ++ ", Podcast" })]) ∧
    (truthySL p.category = false →
      framesOf t' "TCAT" = framesOf t "TCAT" ∧
      framesOf t' "TCON" = [("TCON:", { fid := "TCON", text := "Podcast" })]) ∧
    (truthyS p.copyright = true →
      framesOf t' "TCOP" = [("TCOP:", { fid := "TCOP", text := getS p.copyright })]) ∧
    (truthyS p.copyright = false → framesOf t' "TCOP" = framesOf t "TCOP") ∧
    (∀ d, p.pub_date = some d →
      framesOf t' "TDOR" = [("TDOR:", { fid := "TDOR", text := d.utcIso })] ∧
      framesOf t' "TDRC" = [("TDRC:", { fid := "TDRC", text := toString d.utcYear })]) ∧
    (p.pub_date = none →
      framesOf t' "TDOR" = framesOf t "TDOR" ∧
      framesOf t' "TDRC" = framesOf t "TDRC") ∧
    (∀ v, p.episode_art = some (.url v) → v.isEmpty = false →
      ("APIC:", apicFrame (dl v).1 (dl v).2) ∈ t') ∧
    (truthyArt p.episode_art = false → framesOf t' "APIC" = framesOf t "APIC") ∧
    (truthyS p.episode_id = true →
      ("TGID:", { fid := "TGID", text := getS p.episode_id }) ∈ t') ∧
    (truthyS p.episode_id = false → framesOf t' "TGID" = framesOf t "TGID") := by
  obtain ⟨u, ht', hdec⟩ := fix_tags_ok_decomp dl t p t' hfx
  subst ht'
  have hsub : ∀ K ∈ blockKeysAll, K ∈ writtenKeysAll := by decide
  refine ⟨?_, ?_, ?_, ?_, ?_, ?_, ?_, ?_, ?_, ?_, ?_, ?_, ?_, ?_, ?_, ?_, ?_, ?_,
    ?_, ?_, ?_, ?_, ?_, ?_, ?_, ?_, ?_, ?_, ?_, ?_, ?_, ?_, ?_, ?_, ?_, ?_⟩
  · exact fun hp => synth_trck_present p u hp
  · intro hp
    refine absent_textual dl t u p "TRCK" 0 hdec hWF (by decide) (by decide)
      (by decide) (by decide) ?_ (by decide)
    show trckOps p = []
    unfold trckOps
    rw [if_neg (by simp [hp])]
  · exact fun hp => synth_woar_present p u hp
  · intro hp
    refine absent_textual dl t u p "WOAR" 1 hdec hWF (by decide) (by decide)
      (by decide) (by decide) ?_ (by decide)
    show woarOps p = []
    unfold woarOps
    rw [if_neg (by simp [hp])]
  · exact fun hp => synth_tit2_present p u hp
  · intro hp
    refine absent_textual dl t u p "TIT2" 2 hdec hWF (by decide) (by decide)
      (by decide) (by decide) ?_ (by decide)
    show tit2Ops p = []
    unfold tit2Ops
    rw [if_neg (by simp [hp])]
  · exact fun hp => synth_tit3_present p u hp
  · intro hp
    refine absent_textual dl t u p "TIT3" 3 hdec hWF (by decide) (by decide)
      (by decide) (by decide) ?_ (by decide)
    show tit3Ops p = []
    unfold tit3Ops
    rw [if_neg (by simp [hp])]
  · exact fun hp => synth_tpe1_present p u hp
  · intro hp
    refine absent_textual dl t u p "TPE1" 4 hdec hWF (by decide) (by decide)
      (by decide) (by decide) ?_ (by decide)
    show tpe1Ops p = []
    unfold tpe1Ops
    rw [if_neg (by simp [hp])]
  · exact fun hp => synth_tpe2_present p u hp
  · intro hp
    refine absent_textual dl t u p "TPE2" 5 hdec hWF (by decide) (by decide)
      (by decide) (by decide) ?_ (by decide)
    show tpe2Ops p = []
    unfold tpe2Ops
    rw [if_neg (by simp [hp])]
  · exact fun hp => synth_tpe3_present p u hp
  · intro hp
    refine absent_textual dl t u p "TPE3" 6 hdec hWF (by decide) (by decide)
      (by decide) (by decide) ?_ (by decide)
    show tpe3Ops p = []
    unfold tpe3Ops
    rw [if_neg (by simp [hp])]
  · exact fun hp => synth_tpe4_present p u hp
  · intro hp
    refine absent_textual dl t u p "TPE4" 7 hdec hWF (by decide) (by decide)
      (by decide) (by decide) ?_ (by decide)
    show tpe4Ops p = []
    unfold tpe4Ops
    rw [if_neg (by simp [hp])]
  · exact fun hp => synth_tpro_present p u hp
  · intro hp
    refine absent_textual dl t u p "TPRO" 8 hdec hWF (by decide) (by decide)
      (by decide) (by decide) ?_ (by decide)
    show tproOps p = []
    unfold tproOps
    rw [if_neg (by simp [hp])]
  · exact fun hp => synth_tpub_present p u hp
  · intro hp
    refine absent_textual dl t u p "TPUB" 9 hdec hWF (by decide) (by decide)
      (by decide) (by decide) ?_ (by decide)
    show tpubOps p = []
    unfold tpubOps
    rw [if_neg (by simp [hp])]
  · exact fun hp => ⟨synth_comm_present p u hp, synth_tdes_present p u hp⟩
  · intro hp
    have hj : summaryOps p = [] := by
      unfold summaryOps
      rw [if_neg (by simp [hp])]
    constructor
    · have hkeys := comm_keys t hWF
      have hpre := prefix_preserve dl t u p "COMM" hdec (by decide) (by decide) hkeys
      have habs := synth_absent p u "COMM" 10 hj (by decide)
        (fun kv hkv K hK => by
          rw [hpre] at hkv
          exact hkeys kv hkv K (hsub K hK))
      exact habs.trans hpre
    · exact absent_textual dl t u p "TDES" 10 hdec hWF (by decide) (by decide)
        (by decide) (by decide) hj (by decide)
  · exact fun hp => synth_talb_present p u hp
  · intro hp
    refine absent_textual dl t u p "TALB" 11 hdec hWF (by decide) (by decide)
      (by decide) (by decide) ?_ (by decide)
    show talbOps p = []
    unfold talbOps
    rw [if_neg (by simp [hp])]
  · exact fun hp => synth_tpos_present p u hp
  · intro hp
    refine absent_textual dl t u p "TPOS" 12 hdec hWF (by decide) (by decide)
      (by decide) (by decide) ?_ (by decide)
    show tposOps p = []
    unfold tposOps
    rw [if_neg (by simp [hp])]
  · exact fun hp => ⟨synth_tcat_present p u hp, synth_tcon_present p u hp⟩
  · intro hp
    constructor
    · have hkeys := textual_keys t "TCAT" hWF (by decide) (by decide)
        writtenKeysAll (by decide)
      have hpre := prefix_preserve dl t u p "TCAT" hdec (by decide) (by decide) hkeys
      have habs := synth_tcat_absent p u hp
        (fun kv hkv K hK => by
          rw [hpre] at hkv
          exact hkeys kv hkv K (hsub K hK))
      exact habs.trans hpre
    · exact synth_tcon_default p u hp
  · exact fun hp => synth_tcop_present p u hp
  · intro hp
    refine absent_textual dl t u p "TCOP" 14 hdec hWF (by decide) (by decide)
      (by decide) (by decide) ?_ (by decide)
    show tcopOps p = []
    unfold tcopOps
    rw [if_neg (by simp [hp])]
  · exact fun d hd => ⟨synth_tdor_present p u d hd, synth_tdrc_present p u d hd⟩
  · intro hp
    have hj : pubdateOps p = [] := by
      unfold pubdateOps
      rw [hp]
    constructor
    · exact absent_textual dl t u p "TDOR" 15 hdec hWF (by decide) (by decide)
        (by decide) (by decide) hj (by decide)
    · exact absent_textual dl t u p "TDRC" 15 hdec hWF (by decide) (by decide)
        (by decide) (by decide) hj (by decide)
  · intro v hv hne
    rcases hdec with ⟨htr, _⟩ | ⟨w, hw, hwne, hu⟩
    · rw [hv] at htr
      simp [truthyArt, hne] at htr
    · have hvw : v = w := Art.url.inj (Option.some.inj (hv.symm.trans hw))
      subst hvw
      rw [synthPure_eq]
      refine mem_foldl_blocks
        (blocksFrom p [0, 1, 2, 3, 4, 5, 6, 7, 8, 9, 10, 11, 12, 13, 14, 15, 16])
        u _ _ ?_ (avoid_of_spec _ p "APIC" "APIC:" (by decide))
      rw [hu]
      exact mem_setitem_self ..
  · intro hp
    rcases hdec with ⟨_, hu⟩ | ⟨w, hw, hwne, _⟩
    · have hkeysA := apic_keys t hWF
      have hpre : framesOf u "APIC" = framesOf t "APIC" := by
        rw [hu]
        exact framesOf_setitem_preserve t "PCST:" pcstFrame "APIC" (by decide)
          (fun kv hkv => hkeysA kv hkv "PCST:" (by decide))
      have hsubA : ∀ K ∈ blockKeysAll, K ∈ nonApicKeys := by decide
      have habs := synth_absent p u "APIC" 17 rfl (by decide)
        (fun kv hkv K hK => by
          rw [hpre] at hkv
          exact hkeysA kv hkv K (hsubA K hK))
      exact habs.trans hpre
    · rw [hw] at hp
      simp [truthyArt, hwne] at hp
  · exact fun hp => synth_tgid_present p u hp
  · intro hp
    refine absent_textual dl t u p "TGID" 16 hdec hWF (by decide) (by decide)
      (by decide) (by decide) ?_ (by decide)
    show tgidOps p = []
    unfold tgidOps
    rw [if_neg (by simp [hp])]

/-- C2 counterexample: a well-formed container holding one stale `TGID`
frame, re-synthesized with `episode_id` present, ends with TWO frames of
type `TGID` — the claimed "exactly 1 frame of that type" fails because the
`episode_id` block has no `delall`. -/
theorem fix_tags_stale_tgid_counterexample :
    WFTags [("TGID", { fid := "TGID", text := "old" })] ∧
    truthyS ({ episode_id := some "new" } : CanonicalMetadata).episode_id = true ∧
    fix_tags (fun _ => ([], "")) [("TGID", { fid := "TGID", text := "old" })]
        { episode_id := some "new" }
      = .ok [("TGID", { fid := "TGID", text := "old" }),
             ("PCST:", pcstFrame),
             ("TCON:", { fid := "TCON", text := "Podcast" }),
             ("TGID:", { fid := "TGID", text := "new" })] ∧
    (framesOf [("TGID", { fid := "TGID", text := "old" }),
               ("PCST:", pcstFrame),
               ("TCON:", { fid := "TCON", text := "Podcast" }),
               ("TGID:", { fid := "TGID", text := "new" })] "TGID").length = 2 :=
  ⟨by decide, by decide, rfl, by decide⟩

/-- Witness for the amended tag-rewrite contract at a concrete container and
metadata record: the stale `TIT2` frame is cleared and replaced by exactly
one new frame, and the absent album field leaves `TALB` untouched. -/
theorem fix_tags_clear_then_write_witness :
    WFTags [("TIT2", { fid := "TIT2", text := "oldtitle" })] ∧
    fix_tags (fun _ => ([], "")) [("TIT2", { fid := "TIT2", text := "oldtitle" })]
        { episode_title := some "New", episode_number := 3 }
      = .ok [("PCST:", pcstFrame),
             ("TRCK:", { fid := "TRCK", text := "3" }),
             ("TIT2:", { fid := "TIT2", text := "New" }),
             ("TCON:", { fid := "TCON", text := "Podcast" })] ∧
    framesOf [("PCST:", pcstFrame),
              ("TRCK:", { fid := "TRCK", text := "3" }),
              ("TIT2:", { fid := "TIT2", text := "New" }),
              ("TCON:", { fid := "TCON", text := "Podcast" })] "TIT2"
      = [("TIT2:", { fid := "TIT2", text := "New" })] ∧
    framesOf [("PCST:", pcstFrame),
              ("TRCK:", { fid := "TRCK", text := "3" }),
              ("TIT2:", { fid := "TIT2", text := "New" }),
              ("TCON:", { fid := "TCON", text := "Podcast" })] "TALB"
      = framesOf [("TIT2", { fid := "TIT2", text := "oldtitle" })] "TALB" := by
  have H := fix_tags_clear_then_write (fun _ => ([], ""))
    [("TIT2", { fid := "TIT2", text := "oldtitle" })]
    { episode_title := some "New", episode_number := 3 }
    [("PCST:", pcstFrame),
     ("TRCK:", { fid := "TRCK", text := "3" }),
     ("TIT2:", { fid := "TIT2", text := "New" }),
     ("TCON:", { fid := "TCON", text := "Podcast" })]
    (by decide) rfl
  obtain ⟨h1, h2, h3, h4, h5, h6, h7, h8, h9, h10, h11, h12, h13, h14, h15, h16,
    h17, h18, h19, h20, h21, h22, h23, h24, hrest⟩ := H
  exact ⟨by decide, rfl, h5 (by decide), h24 (by decide)⟩

/-- C6: a remote artwork URL is resolved to bytes and MIME type through the
downloader and embedded as the `APIC` frame; inline artwork bytes make the
rewrite fail with `UnboundLocalError` (the `mimetype` local is only assigned
in the URL branch) instead of being embedded as-is. -/
theorem fix_tags_episode_art_eval :
    fix_tags (fun _ => ([9, 9], "image/jpeg")) []
        { episode_art := some (.url "http://example.com/a.jpg") }
      = .ok [("PCST:", pcstFrame),
             ("APIC:", apicFrame [9, 9] "image/jpeg"),
             ("TCON:", { fid := "TCON", text := "Podcast" })] ∧
    fix_tags (fun _ => ([9, 9], "image/jpeg")) []
        { episode_art := some (.blob [1, 2, 3]) }
      = .error "UnboundLocalError: mimetype referenced before assignment" :=
  ⟨rfl, rfl⟩

/-- Witness for the podcast-flag invariant at a concrete run. -/
theorem fix_tags_always_pcst_witness :
    fix_tags (fun _ => ([], "")) [] ({} : CanonicalMetadata)
      = .ok [("PCST:", pcstFrame), ("TCON:", { fid := "TCON", text := "Podcast" })] ∧
    ("PCST:", pcstFrame) ∈
      [("PCST:", pcstFrame), ("TCON:", { fid := "TCON", text := "Podcast" })] :=
  ⟨rfl, fix_tags_always_pcst (fun _ => ([], "")) [] {} _ rfl⟩

/-! ## The per-entry task (`process_entry`, `src/pypodcast/__init__.py` 58-115)

`open_cache` (config.py 53-63) yields the cached document and writes it back
only when the body finishes without raising; on an exception at the yield the
write-back is skipped, so a failed entry leaves its cache key unchanged.
External collaborators (HTTP download, mutagen parsing, the provider class
loaded by `import_string`, `mimetypes.guess_extension`, the `gentle_format`
plus `sanitize_filepath` destination formatting, and the file write) are
oracles. -/

/-- One enclosure, link or content item of an entry: MIME type and URL. -/
structure EntryBit where
  type : String
  href : String
deriving Repr, DecidableEq

/-- A feed entry, with the parts `process_entry` reads. -/
structure Entry where
  id : String
  title : String
  enclosures : List EntryBit
  links : List EntryBit
  content : List EntryBit
deriving Repr, DecidableEq

/-- Python `s.startswith(pre)`, on the character lists. -/
def pyStartsWith (pre s : String) : Bool := pre.data.isPrefixOf s.data

/-- The set comprehension of lines 71-79: the distinct `(type, href)` pairs
whose MIME type starts with `audio/`, drawn from enclosures, links and
inline content. -/
def audioCandidates (e : Entry) : List (String × String) :=
  (((e.enclosures ++ e.links ++ e.content).filter
      (fun b => pyStartsWith "audio/" b.type)).map (fun b => (b.type, b.href))).dedup

/-- Line 80, `(audio_type, audio_url), = urls`: unpacking demands exactly one
candidate; zero or several raise (the spec's `AmbiguousAudioAsset`). -/
def selectAudio (e : Entry) : Except String (String × String) :=
  match audioCandidates e with
  | [p] => .ok p
  | _ => .error "AmbiguousAudioAsset"

/-- A parsed audio container: its tag mapping and declared MIME types. -/
structure Container where
  tags : Tags
  mime : List String

/-- `_get_ext` (lines 118-123) over the `mimetypes.guess_extension` oracle:
first declared MIME type with a truthy extension, else `ValueError`
(the spec's `MissingExtension`). -/
def get_ext (guess : String → Option String) : List String → Except String String
  | [] => .error "ValueError: no extension found"
  | m :: ms =>
      match guess m with
      | some ext => if ext.isEmpty then get_ext guess ms else .ok ext
      | none => get_ext guess ms

/-- The external collaborators of one `process_entry` run. -/
structure PEOracles where
  download : String → Except String (List Nat)
  parse : List Nat → Except String Container
  provider : Except String CanonicalMetadata
  dl_blob : String → List Nat × String
  guessExt : String → Option String
  formatDest : CanonicalMetadata → Except String String
  writeOk : Bool

/-- The externally visible effects of one `process_entry` run: whether the
destination file was fully written and whether a cache marker was committed
for the entry's fingerprint. -/
structure PEEffects where
  fileWritten : Bool
  cacheCommitted : Bool
deriving Repr, DecidableEq

/-- No file written, no marker committed. -/
def noEffects : PEEffects := { fileWritten := false, cacheCommitted := false }

/-- `process_entry` (lines 58-115): cache short-circuit, audio selection,
download, container parse, provider instantiation, tag rewrite, destination
formatting, extension lookup, file write, cache commit — any raise aborts the
rest and, through `open_cache`, skips the cache write-back. -/
def process_entry (cachePresent : Bool) (e : Entry) (o : PEOracles) :
    PEEffects × Except String Unit :=
  if cachePresent then (noEffects, .ok ())
  else
    match selectAudio e with
    | .error err => (noEffects, .error err)
    | .ok sel =>
      match o.download sel.2 with
      | .error err => (noEffects, .error err)
      | .ok audio =>
        match o.parse audio with
        | .error err => (noEffects, .error err)
        | .ok meta =>
          match o.provider with
          | .error err => (noEffects, .error err)
          | .ok prov =>
            match fix_tags o.dl_blob meta.tags prov with
            | .error err => (noEffects, .error err)
            | .ok _ =>
              match o.formatDest prov with
              | .error err => (noEffects, .error err)
              | .ok _ =>
                match get_ext o.guessExt meta.mime with
                | .error err => (noEffects, .error err)
                | .ok _ =>
                  if o.writeOk then
                    ({ fileWritten := true, cacheCommitted := true }, .ok ())
                  else (noEffects, .error "OSError: write failed")

/-- C3: with zero or several distinct audio candidates, the per-entry task
fails with `AmbiguousAudioAsset`, writes no file and commits no cache
marker. -/
theorem process_entry_ambiguous_audio (e : Entry) (o : PEOracles)
    (h : (audioCandidates e).length ≠ 1) :
    process_entry false e o = (noEffects, .error "AmbiguousAudioAsset") := by
  have hsel : selectAudio e = .error "AmbiguousAudioAsset" := by
    unfold selectAudio
    match hc : audioCandidates e with
    | [] => rfl
    | [p] => exact absurd (by rw [hc]; rfl) h
    | p :: q :: rest => rfl
  simp only [process_entry, Bool.false_eq_true, if_false, hsel]

/-- C4: a cache marker is committed only on a run that also fully wrote the
destination file and finished without error; any failing run commits no
marker and writes no file. -/
theorem process_entry_cache_after_write (c : Bool) (e : Entry) (o : PEOracles) :
    ((process_entry c e o).1.cacheCommitted = true →
      (process_entry c e o).1.fileWritten = true ∧
        (process_entry c e o).2 = .ok ()) ∧
    (∀ err, (process_entry c e o).2 = .error err →
      (process_entry c e o).1.cacheCommitted = false ∧
        (process_entry c e o).1.fileWritten = false) := by
  unfold process_entry
  repeat' split
  all_goals
    exact ⟨fun h => by simp_all [noEffects], fun err herr => by simp_all [noEffects]⟩

/-- All-succeeding oracles for witness runs. -/
def okOracles : PEOracles :=
  { download := fun _ => .ok []
    parse := fun _ => .ok { tags := [], mime := ["audio/mpeg"] }
    provider := .ok {}
    dl_blob := fun _ => ([], "")
    guessExt := fun _ => some ".mp3"
    formatDest := fun _ => .ok "Album/Episode"
    writeOk := true }

/-- An entry exposing two distinct audio assets. -/
def twoAudioEntry : Entry :=
  { id := "e1"
    title := "42 - Condos"
    enclosures := [{ type := "audio/mpeg", href := "http://host/a.mp3" },
                   { type := "audio/mpeg", href := "http://host/b.mp3" }]
    links := []
    content := [] }

/-- An entry exposing exactly one audio asset (the enclosure is repeated in
the links, as feedparser does, and dedups away). -/
def oneAudioEntry : Entry :=
  { id := "e2"
    title := "42 - Condos"
    enclosures := [{ type := "audio/mpeg", href := "http://host/a.mp3" }]
    links := [{ type := "audio/mpeg", href := "http://host/a.mp3" },
              { type := "text/html", href := "http://host/page" }]
    content := [] }

/-- Witness for the cardinality guard on a concrete two-asset entry. -/
theorem process_entry_ambiguous_audio_witness :
    (audioCandidates twoAudioEntry).length ≠ 1 ∧
    process_entry false twoAudioEntry okOracles
      = (noEffects, .error "AmbiguousAudioAsset") :=
  ⟨by decide, process_entry_ambiguous_audio twoAudioEntry okOracles (by decide)⟩

/-- Witness for the cache-after-write invariant at a fully successful run. -/
theorem process_entry_cache_after_write_witness :
    (process_entry false oneAudioEntry okOracles).1.cacheCommitted = true ∧
    ((process_entry false oneAudioEntry okOracles).1.fileWritten = true ∧
      (process_entry false oneAudioEntry okOracles).2 = .ok ()) :=
  ⟨by decide,
    (process_entry_cache_after_write false oneAudioEntry okOracles).1 (by decide)⟩

/-! ## The orchestration (`process_feeds`, lines 42-55, and `catch_errors`,
lines 32-39)

`process_feeds` walks the configured feeds sequentially; for each entry it
calls `process_entry(feedconfig, feed, entry)` directly (line 54) and then
also submits the same call to the worker pool (line 55).  `catch_errors`
wraps `process_entry`: any exception is printed and swallowed, the wrapper
returning `None`. -/

/-- `catch_errors` (lines 32-39): report and swallow any error of the
wrapped task, turning it into a skipped unit (`none`). -/
def catch_errors {α β : Type} (f : α → Except String β) : α → Option β := fun a =>
  match f a with
  | .ok b => some b
  | .error _ => none

/-- The invocations of `process_entry` performed by one run of
`process_feeds`, as `(feed index, entry index, via pool.submit)`:
line 54 contributes the direct call (`false`), line 55 the pooled call
(`true`). -/
def process_feeds_calls (feeds : List (List Entry)) : List (Nat × Nat × Bool) :=
  feeds.enum.flatMap (fun fe =>
    fe.2.enum.flatMap (fun ee => [(fe.1, ee.1, false), (fe.1, ee.1, true)]))

/-- The per-invocation outcomes of one run of `process_feeds`, with the
per-entry task guarded by `catch_errors` exactly as `process_entry` is
decorated in the source. -/
def process_feeds_results (feeds : List (List Entry))
    (task : Entry → Except String Unit) : List (Option Unit) :=
  feeds.flatMap (fun entries =>
    entries.flatMap (fun e => [catch_errors task e, catch_errors task e]))

theorem length_two_bind {α γ : Type} (g : α → List γ) (h2 : ∀ a, (g a).length = 2)
    (l : List α) : (l.flatMap g).length = 2 * l.length := by
  induction l with
  | nil => rfl
  | cons a as ih =>
      rw [List.flatMap_cons, List.length_append, h2 a, ih, List.length_cons]
      omega

theorem sum_two_mul (l : List (List Entry)) :
    (l.map (fun es => 2 * es.length)).sum = 2 * (l.map List.length).sum := by
  induction l with
  | nil => rfl
  | cons es fs ih =>
      rw [List.map_cons, List.map_cons, List.sum_cons, List.sum_cons, ih]
      omega

/-- C1 (code evaluation): `process_feeds` performs two invocations of the
per-entry task for every entry — the direct call of line 54 plus the pooled
call of line 55 — where the claim demands exactly one. -/
theorem process_feeds_double_invocation :
    (∀ e : Entry, process_feeds_calls [[e]] = [(0, 0, false), (0, 0, true)]) ∧
    (∀ feeds : List (List Entry),
      (process_feeds_calls feeds).length = 2 * (feeds.map List.length).sum) := by
  constructor
  · intro e
    rfl
  · intro feeds
    unfold process_feeds_calls
    rw [List.length_flatMap]
    have he : List.map (List.length ∘ fun fe : Nat × List Entry =>
        fe.2.enum.flatMap (fun ee => [(fe.1, ee.1, false), (fe.1, ee.1, true)]))
          feeds.enum
        = feeds.enum.map (fun fe => 2 * fe.2.length) := by
      refine List.map_congr_left ?_
      intro fe _
      show (fe.2.enum.flatMap
        (fun ee => [(fe.1, ee.1, false), (fe.1, ee.1, true)])).length = _
      rw [length_two_bind (fun ee => [(fe.1, ee.1, false), (fe.1, ee.1, true)])
        (fun _ => rfl) fe.2.enum, List.enum_length]
    rw [he]
    have hm : feeds.enum.map (fun fe => 2 * fe.2.length)
        = feeds.map (fun es => 2 * es.length) := by
      rw [show (fun fe : Nat × List Entry => 2 * fe.2.length)
          = ((fun es : List Entry => 2 * es.length) ∘ Prod.snd) from rfl,
        ← List.map_map, List.enum_map_snd]
    rw [hm, sum_two_mul]

/-- C5: a per-entry error is converted by the `catch_errors` boundary into a
skipped unit (`none`); the run's outcome list decomposes feed-by-feed and
entry-by-entry, so one entry's error cannot change any other entry's or
feed's outcome; and every entry of every feed yields its completed
invocations, so the run always finishes. -/
theorem process_feeds_error_isolation :
    (∀ (task : Entry → Except String Unit) (e : Entry) (msg : String),
      task e = .error msg → catch_errors task e = none) ∧
    (∀ (fs1 fs2 : List (List Entry)) (task : Entry → Except String Unit),
      process_feeds_results (fs1 ++ fs2) task
        = process_feeds_results fs1 task ++ process_feeds_results fs2 task) ∧
    (∀ (es1 es2 : List Entry) (task : Entry → Except String Unit),
      process_feeds_results [es1 ++ es2] task
        = process_feeds_results [es1] task ++ process_feeds_results [es2] task) ∧
    (∀ (e : Entry) (task : Entry → Except String Unit),
      process_feeds_results [[e]] task
        = [catch_errors task e, catch_errors task e]) ∧
    (∀ (feeds : List (List Entry)) (task : Entry → Except String Unit),
      (process_feeds_results feeds task).length
        = 2 * (feeds.map List.length).sum) := by
  refine ⟨?_, ?_, ?_, ?_, ?_⟩
  · intro task e msg h
    unfold catch_errors
    rw [h]
  · intro fs1 fs2 task
    unfold process_feeds_results
    rw [List.flatMap_append]
  · intro es1 es2 task
    unfold process_feeds_results
    simp [List.flatMap_append]
  · intro e task
    rfl
  · intro feeds task
    unfold process_feeds_results
    rw [List.length_flatMap]
    have he : List.map (List.length ∘ fun entries : List Entry =>
        entries.flatMap (fun e => [catch_errors task e, catch_errors task e])) feeds
        = feeds.map (fun es => 2 * es.length) := by
      refine List.map_congr_left ?_
      intro es _
      show (es.flatMap (fun e => [catch_errors task e, catch_errors task e])).length = _
      rw [length_two_bind (fun e => [catch_errors task e, catch_errors task e])
        (fun _ => rfl) es]
    rw [he, sum_two_mul]

/-- Witness: a task that raises `FetchError` is caught and becomes a
skipped unit. -/
theorem process_feeds_error_isolation_witness :
    (fun _ : Entry => (Except.error "FetchError" : Except String Unit)) twoAudioEntry
        = .error "FetchError" ∧
    catch_errors (fun _ : Entry => (Except.error "FetchError" : Except String Unit))
        twoAudioEntry = none :=
  ⟨rfl, process_feeds_error_isolation.1 _ twoAudioEntry "FetchError" rfl⟩

/-! ## `Provider.__getitem__` (`src/pypodcast/providers/__init__.py` 16-32) -/

/-- Outcome of Python `getattr(provider, key)`: a value, an
`AttributeError` (no such attribute), or some other raised exception
(e.g. `NotImplementedError` from an unimplemented base accessor). -/
inductive AttrResult (α : Type) where
  | val (v : α)
  | attrError
  | raised (msg : String)

/-- `Provider.__getitem__`: try `getattr(self, key)` catching only
`AttributeError`; then `self.entry[key]` catching `KeyError`; then
`self.feed[key]` catching `KeyError`; else raise
`KeyError(f"Cannot find {key!r}")`. -/
def provider_getitem {α : Type} (getattr : String → AttrResult α)
    (entry feed : String → Option α) (key : String) : Except String α :=
  match getattr key with
  | .val v => .ok v
  | .attrError =>
      match entry key with
      | some v => .ok v
      | none =>
          match feed key with
          | some v => .ok v
          | none => .error ("KeyError: Cannot find " ++ key)
  | .raised msg => .error msg

/-- Modelled from the spec sentence of C8: resolve a computed canonical
field first, else the raw entry's field, else the raw feed's field, else
fail with "not found". -/
def lookup_spec {α : Type} (canonical entry feed : String → Option α)
    (key : String) : Except String α :=
  match canonical key with
  | some v => .ok v
  | none =>
      match entry key with
      | some v => .ok v
      | none =>
          match feed key with
          | some v => .ok v
          | none => .error ("KeyError: Cannot find " ++ key)

/-- A table of supplied canonical fields, read through Python attribute
lookup: a supplied field returns its value, any other name raises
`AttributeError`. -/
def getattrOf {α : Type} (canonical : String → Option α) :
    String → AttrResult α := fun key =>
  match canonical key with
  | some v => .val v
  | none => .attrError

/-- C8: the lookup-by-name convenience resolves a supplied computed
canonical field first, otherwise the raw entry's field of that name,
otherwise the raw feed's field, otherwise it fails with "not found". -/
theorem provider_getitem_resolution {α : Type}
    (canonical entry feed : String → Option α) (key : String) :
    provider_getitem (getattrOf canonical) entry feed key
      = lookup_spec canonical entry feed key := by
  unfold provider_getitem lookup_spec getattrOf
  rcases hc : canonical key with _ | v <;> simp [hc]

/-! ## `Nightvale._num_title` (providers/__init__.py 138-142)

`re.search(r'^(\d+)\s*-\s*(.+)$', title)`: an anchored match of one or
more digits, optional whitespace, a literal `-`, optional whitespace, and
a non-empty remainder of non-newline characters reaching the end of the
string (or leaving just one final newline, which Python's `$` permits).
The backtracking search is deterministic here: only the maximal digit run
can continue (the next character would be a digit, which neither `\s*`
nor `-` accepts), only the maximal whitespace run before `-` can continue,
and the `\s*` before `(.+)$` backtracks from longest to shortest.
Digits and whitespace are modelled by `Char.isDigit`/`Char.isWhitespace`
(ASCII, matching the titles this feed carries). -/

/-- `int(match[1])` over the digit characters. -/
def digitsToNat (ds : List Char) : Nat :=
  ds.foldl (fun n c => 10 * n + (c.toNat - 48)) 0

/-- `(.+)$` at the current position: the maximal run of non-newline
characters, accepted when it is non-empty and reaches the end of the
string or leaves exactly one final newline. -/
def dollarMatch (s : List Char) : Option (List Char) :=
  let p := s.takeWhile (fun c => c != '\n')
  let q := s.dropWhile (fun c => c != '\n')
  if p.isEmpty then none
  else if q = [] ∨ q = ['\n'] then some p else none

/-- Backtracking over the greedy `\s*` before `(.+)$`: `w` holds the
whitespace consumed so far, reversed; the longest consumption is tried
first, then characters are handed back one at a time. -/
def tailTry : List Char → List Char → Option (List Char)
  | [], s => dollarMatch s
  | c :: w2, s =>
    match dollarMatch s with
    | some r => some r
    | none => tailTry w2 (c :: s)

/-- The anchored regex match: digits, whitespace, `-`, then
`\s*(.+)$` with backtracking. -/
def numTitleMatch (cs : List Char) : Option (Nat × List Char) :=
  let ds := cs.takeWhile Char.isDigit
  if ds.isEmpty then none
  else
    match (cs.dropWhile Char.isDigit).dropWhile Char.isWhitespace with
    | c :: r3 =>
        if c = '-' then
          match tailTry (r3.takeWhile Char.isWhitespace).reverse
              (r3.dropWhile Char.isWhitespace) with
          | some r => some (digitsToNat ds, r)
          | none => none
        else none
    | [] => none

/-- `Nightvale._num_title` (lines 138-142): `(int(match[1]), match[2])` on
a match, `(0, title)` otherwise. -/
def num_title (title : String) : Nat × String :=
  match numTitleMatch title.data with
  | some nr => (nr.1, String.mk nr.2)
  | none => (0, title)

theorem dollarMatch_sound (s p : List Char) (h : dollarMatch s = some p) :
    p ≠ [] ∧ (∀ c ∈ p, c ≠ '\n') ∧ (s = p ∨ s = p ++ ['\n']) := by
  unfold dollarMatch at h
  by_cases h1 : (s.takeWhile (fun c => c != '\n')).isEmpty
  · rw [if_pos h1] at h
    cases h
  · rw [if_neg h1] at h
    by_cases h2 : (s.dropWhile (fun c => c != '\n')) = []
        ∨ (s.dropWhile (fun c => c != '\n')) = ['\n']
    · rw [if_pos h2] at h
      injection h with h3
      subst h3
      refine ⟨fun hnil => h1 (by simp [hnil]), ?_, ?_⟩
      · intro c hc
        have hmem := List.mem_takeWhile_imp hc
        simpa using hmem
      · rcases h2 with h2 | h2
        · left
          conv_lhs => rw [← List.takeWhile_append_dropWhile
            (p := fun c => c != '\n') (l := s)]
          rw [h2, List.append_nil]
        · right
          conv_lhs => rw [← List.takeWhile_append_dropWhile
            (p := fun c => c != '\n') (l := s)]
          rw [h2]
    · rw [if_neg h2] at h
      cases h

theorem tailTry_sound : ∀ (w s r : List Char), (∀ c ∈ w, c.isWhitespace) →
    tailTry w s = some r →
    ∃ w2 tl, w.reverse ++ s = w2 ++ r ++ tl ∧ (∀ c ∈ w2, c.isWhitespace) ∧
      r ≠ [] ∧ (∀ c ∈ r, c ≠ '\n') ∧ (tl = [] ∨ tl = ['\n']) := by
  intro w
  induction w with
  | nil =>
      intro s r hw h
      have hd : dollarMatch s = some r := h
      obtain ⟨h1, h2, h3⟩ := dollarMatch_sound s r hd
      rcases h3 with h3 | h3
      · exact ⟨[], [], by simp [h3], by simp, h1, h2, .inl rfl⟩
      · exact ⟨[], ['\n'], by simp [h3], by simp, h1, h2, .inr rfl⟩
  | cons c w2 ih =>
      intro s r hw h
      have h' : (match dollarMatch s with
        | some rr => some rr
        | none => tailTry w2 (c :: s)) = some r := h
      cases hd : dollarMatch s with
      | some p =>
          rw [hd] at h'
          injection h' with h2
          subst h2
          obtain ⟨h1, h2, h3⟩ := dollarMatch_sound s p hd
          rcases h3 with h3 | h3
          · refine ⟨(c :: w2).reverse, [], by rw [h3]; simp, ?_, h1, h2, .inl rfl⟩
            intro x hx
            exact hw x (List.mem_reverse.mp hx)
          · refine ⟨(c :: w2).reverse, ['\n'], by rw [h3]; simp, ?_, h1, h2, .inr rfl⟩
            intro x hx
            exact hw x (List.mem_reverse.mp hx)
      | none =>
          rw [hd] at h'
          obtain ⟨w3, tl, he, hwsp, hr, hrn, htl⟩ :=
            ih (c :: s) r (fun x hx => hw x (List.mem_cons_of_mem _ hx)) h'
          refine ⟨w3, tl, ?_, hwsp, hr, hrn, htl⟩
          rw [List.reverse_cons, List.append_assoc]
          exact he

theorem numTitleMatch_sound (cs : List Char) (n : Nat) (r : List Char)
    (h : numTitleMatch cs = some (n, r)) :
    ∃ ds w1 w2 tl, cs = ds ++ w1 ++ '-' :: (w2 ++ r ++ tl) ∧
      ds ≠ [] ∧ (∀ c ∈ ds, c.isDigit) ∧ (∀ c ∈ w1, c.isWhitespace) ∧
      (∀ c ∈ w2, c.isWhitespace) ∧ r ≠ [] ∧ (∀ c ∈ r, c ≠ '\n') ∧
      (tl = [] ∨ tl = ['\n']) ∧ n = digitsToNat ds := by
  unfold numTitleMatch at h
  by_cases hds : (cs.takeWhile Char.isDigit).isEmpty
  · rw [if_pos hds] at h
    cases h
  · rw [if_neg hds] at h
    cases hr2 : (cs.dropWhile Char.isDigit).dropWhile Char.isWhitespace with
    | nil =>
        rw [hr2] at h
        cases h
    | cons c0 r3 =>
        rw [hr2] at h
        have h' : (if c0 = '-' then
            match tailTry (r3.takeWhile Char.isWhitespace).reverse
                (r3.dropWhile Char.isWhitespace) with
            | some r => some (digitsToNat (cs.takeWhile Char.isDigit), r)
            | none => none
          else none) = some (n, r) := h
        by_cases hc0 : c0 = '-'
        · rw [if_pos hc0] at h'
          cases ht : tailTry (r3.takeWhile Char.isWhitespace).reverse
              (r3.dropWhile Char.isWhitespace) with
          | none =>
              rw [ht] at h'
              cases h'
          | some r4 =>
              rw [ht] at h'
              injection h' with h2
              rw [Prod.mk.injEq] at h2
              obtain ⟨hn, hr4⟩ := h2
              subst hn
              subst hr4
              obtain ⟨w3, tl, he, hwsp, hrne, hrn, htl⟩ :=
                tailTry_sound (r3.takeWhile Char.isWhitespace).reverse
                  (r3.dropWhile Char.isWhitespace) r4
                  (fun x hx => by
                    have hx2 : x ∈ r3.takeWhile Char.isWhitespace := by
                      simpa using hx
                    simpa using List.mem_takeWhile_imp hx2) ht
              rw [List.reverse_reverse] at he
              have e3 : r3 = w3 ++ (r4 ++ tl) := by
                have e := (List.takeWhile_append_dropWhile
                  (p := Char.isWhitespace) (l := r3)).symm.trans he
                simpa [List.append_assoc] using e
              have e2 : cs.dropWhile Char.isDigit
                  = (cs.dropWhile Char.isDigit).takeWhile Char.isWhitespace
                    ++ ('-' :: (w3 ++ (r4 ++ tl))) := by
                conv_lhs => rw [← List.takeWhile_append_dropWhile
                  (p := Char.isWhitespace) (l := cs.dropWhile Char.isDigit),
                  hr2, hc0, e3]
              have e1 : cs = cs.takeWhile Char.isDigit
                  ++ ((cs.dropWhile Char.isDigit).takeWhile Char.isWhitespace
                    ++ ('-' :: (w3 ++ (r4 ++ tl)))) := by
                conv_lhs => rw [← List.takeWhile_append_dropWhile
                  (p := Char.isDigit) (l := cs), e2]
              refine ⟨cs.takeWhile Char.isDigit,
                (cs.dropWhile Char.isDigit).takeWhile Char.isWhitespace,
                w3, tl, ?_, ?_, ?_, ?_, hwsp, hrne, hrn, htl, rfl⟩
              · exact e1.trans (by simp [List.append_assoc])
              · simpa using hds
              · intro c hc
                exact List.mem_takeWhile_imp hc
              · intro c hc
                exact List.mem_takeWhile_imp hc
        · rw [if_neg hc0] at h'
          cases h'

/-- C7: the number/title split — `"42 - Condos"` yields `(42, "Condos")`;
a non-matching title is returned unchanged with number 0; and every match
decomposes the title as digits, whitespace, `-`, whitespace, and the
non-empty remainder (up to Python's `$` tolerance of one final newline),
the number being the parsed digits. -/
theorem num_title_split :
    num_title "42 - Condos" = (42, "Condos") ∧
    num_title "Condos" = (0, "Condos") ∧
    (∀ t : String, numTitleMatch t.data = none → num_title t = (0, t)) ∧
    (∀ (cs : List Char) (n : Nat) (r : List Char),
      numTitleMatch cs = some (n, r) →
      ∃ ds w1 w2 tl, cs = ds ++ w1 ++ '-' :: (w2 ++ r ++ tl) ∧
        ds ≠ [] ∧ (∀ c ∈ ds, c.isDigit) ∧ (∀ c ∈ w1, c.isWhitespace) ∧
        (∀ c ∈ w2, c.isWhitespace) ∧ r ≠ [] ∧ (∀ c ∈ r, c ≠ '\n') ∧
        (tl = [] ∨ tl = ['\n']) ∧ n = digitsToNat ds) := by
  refine ⟨by decide, by decide, ?_, numTitleMatch_sound⟩
  intro t h
  unfold num_title
  rw [h]

/-- Witness for the no-match side of the number/title split. -/
theorem num_title_split_witness :
    numTitleMatch "Condos".data = none ∧ num_title "Condos" = (0, "Condos") :=
  ⟨by decide, num_title_split.2.2.1 "Condos" (by decide)⟩

/-! ## `Nightvale.album` (providers/__init__.py 144-188) -/

/-- Python `s.lower()`, on the character list. -/
def pyLower (s : String) : String := ⟨s.data.map Char.toLower⟩

/-- Substring test on character lists (Python `needle in hay`). -/
def listContains (n : List Char) : List Char → Bool
  | [] => n.isEmpty
  | c :: t => n.isPrefixOf (c :: t) || listContains n t

/-- Python `needle in hay` for strings. -/
def strIn (needle hay : String) : Bool := listContains needle.data hay.data

/-- The fields of a Nightvale feed entry read by `album` and `_num_title`. -/
structure NVEntry where
  title : String
  description : String
deriving Repr, DecidableEq

/-- `Nightvale.summary` (lines 134-136): markdownify of the entry
description, the markdown renderer being an external oracle. -/
def nv_summary (md : String → String) (e : NVEntry) : String := md e.description

/-- `Nightvale.album` (lines 144-188): the ordered keyword tests over the
lower-cased split title (the excerpt test also checks the summary), first
match winning, empty string when nothing matches. -/
def nv_album (md : String → String) (e : NVEntry) : String :=
  let nt := num_title e.title
  let title := pyLower nt.2
  if nt.1 != 0 || strIn "new to night vale" title then "Welcome to Night Vale"
  else if strIn "behind the scenes" title then "Welcome to Night Vale: Behind the Scenes"
  else if strIn "excerpt" title || strIn "excerpt" (pyLower (nv_summary md e)) then "Welcome to Night Vale: Excerpts"
  else if strIn "bonus" title then "Welcome to Night Vale: Bonus Episodes"
  else if strIn "announcement" title || strIn "news" title || strIn "a message from" title then "Welcome to Night Vale: News"
  else if strIn "adventures in new america" title then "Adventures in New America"
  else if strIn "dreamboy" title then "Dreamboy"
  else if strIn "unlicensed" title then "Unlicensed"
  else if strIn "within the wires" title then "Within the Wires"
  else if strIn "the orbiting human circus" title then "The Orbiting Human Circus"
  else if strIn "conversations with people who hate me" title then "Conversations with People Who Hate Me"
  else if strIn "good morning night vale" title then "Good Morning Night Vale"
  else if strIn "pounded in the butt" title then "Pounded in the Butt"
  else if strIn "start with this" title then "Start With This"
  else if strIn "the first ten years" title then "The First Ten Years"
  else if strIn "the summer of night vale presents" title then "The Summer of Night Vale Presents"
  else if strIn "i only listen to the mountain goats" title then "I Only Listen to the Mountain Goats"
  else if strIn "it makes a sound" title then "It Makes A Sound"
  else if strIn "alice isn\x27t dead" title then "Alice Isn\x27t Dead"
  else ""

/-- The album tests of lines 149-188 as an ordered list of
(condition, album) pairs. -/
def nv_album_rules (md : String → String) (e : NVEntry) : List (Bool × String) :=
  let nt := num_title e.title
  let title := pyLower nt.2
  [(nt.1 != 0 || strIn "new to night vale" title, "Welcome to Night Vale"),
   (strIn "behind the scenes" title, "Welcome to Night Vale: Behind the Scenes"),
   (strIn "excerpt" title || strIn "excerpt" (pyLower (nv_summary md e)), "Welcome to Night Vale: Excerpts"),
   (strIn "bonus" title, "Welcome to Night Vale: Bonus Episodes"),
   (strIn "announcement" title || strIn "news" title || strIn "a message from" title, "Welcome to Night Vale: News"),
   (strIn "adventures in new america" title, "Adventures in New America"),
   (strIn "dreamboy" title, "Dreamboy"),
   (strIn "unlicensed" title, "Unlicensed"),
   (strIn "within the wires" title, "Within the Wires"),
   (strIn "the orbiting human circus" title, "The Orbiting Human Circus"),
   (strIn "conversations with people who hate me" title, "Conversations with People Who Hate Me"),
   (strIn "good morning night vale" title, "Good Morning Night Vale"),
   (strIn "pounded in the butt" title, "Pounded in the Butt"),
   (strIn "start with this" title, "Start With This"),
   (strIn "the first ten years" title, "The First Ten Years"),
   (strIn "the summer of night vale presents" title, "The Summer of Night Vale Presents"),
   (strIn "i only listen to the mountain goats" title, "I Only Listen to the Mountain Goats"),
   (strIn "it makes a sound" title, "It Makes A Sound"),
   (strIn "alice isn\x27t dead" title, "Alice Isn\x27t Dead")]

/-- First matching rule wins; no match gives the empty string. -/
def firstMatch : List (Bool × String) → String
  | [] => ""
  | (c, v) :: rest => if c then v else firstMatch rest

theorem firstMatch_all_false (l : List (Bool × String))
    (h : ∀ rule ∈ l, rule.1 = false) : firstMatch l = "" := by
  induction l with
  | nil => rfl
  | cons cv rest ih =>
      show (if cv.1 then cv.2 else firstMatch rest) = ""
      rw [h cv (List.mem_cons_self ..)]
      simp only [Bool.false_eq_true, if_false]
      exact ih (fun rule hr => h rule (List.mem_cons_of_mem _ hr))

theorem firstMatch_wins (l : List (Bool × String)) (i : Nat) (rule : Bool × String)
    (hget : l.get? i = some rule) (htrue : rule.1 = true)
    (hbefore : ∀ j, j < i → ∀ rule2, l.get? j = some rule2 → rule2.1 = false) :
    firstMatch l = rule.2 := by
  induction l generalizing i with
  | nil => cases hget
  | cons cv rest ih =>
      cases i with
      | zero =>
          injection hget with hg
          subst hg
          show (if cv.1 then cv.2 else firstMatch rest) = cv.2
          rw [htrue]
          simp
      | succ i =>
          have h0 : cv.1 = false :=
            hbefore 0 (Nat.succ_pos i) cv rfl
          show (if cv.1 then cv.2 else firstMatch rest) = rule.2
          rw [h0]
          simp only [Bool.false_eq_true, if_false]
          exact ih i hget
            (fun j hj rule2 hr2 => hbefore (j + 1) (Nat.succ_lt_succ hj) rule2 hr2)

/-- C9: `Nightvale.album` is exactly the ordered rule table applied
first-match-wins (the third rule also inspecting the summary); in
particular a rule matches at position `i` with all earlier rules failing
iff that rule's album is returned, and no rule matching returns the empty
string. -/
theorem nightvale_album_first_match :
    (∀ (md : String → String) (e : NVEntry),
      nv_album md e = firstMatch (nv_album_rules md e)) ∧
    (∀ (md : String → String) (e : NVEntry),
      (∀ rule ∈ nv_album_rules md e, rule.1 = false) → nv_album md e = "") ∧
    (∀ (md : String → String) (e : NVEntry) (i : Nat) (rule : Bool × String),
      (nv_album_rules md e).get? i = some rule → rule.1 = true →
      (∀ j, j < i → ∀ rule2, (nv_album_rules md e).get? j = some rule2 →
        rule2.1 = false) →
      nv_album md e = rule.2) := by
  have heq : ∀ (md : String → String) (e : NVEntry),
      nv_album md e = firstMatch (nv_album_rules md e) := by
    intro md e
    rfl
  refine ⟨heq, ?_, ?_⟩
  · intro md e h
    rw [heq]
    exact firstMatch_all_false _ h
  · intro md e i rule hget htrue hbefore
    rw [heq]
    exact firstMatch_wins _ i rule hget htrue hbefore

/-- Witness: a title and summary matching no test give the empty album. -/
theorem nightvale_album_first_match_witness :
    (∀ rule ∈ nv_album_rules id { title := "zzz", description := "" },
      rule.1 = false) ∧
    nv_album id { title := "zzz", description := "" } = "" :=
  ⟨by decide, nightvale_album_first_match.2.1 id
    { title := "zzz", description := "" } (by decide)⟩

end Pypodcast